import Mathlib

/-!
Shallow embedding of the Lattice templating engine (lib/lattice.c) and proofs
about it.  C `double` values are modelled by exact rationals (`Rat`); every
number the theorems below evaluate lies in a range where IEEE binary64
arithmetic is exact, so the model agrees with the C semantics there.  C strings
are modelled by `String` restricted to NUL-free ASCII data (the template format
is specified as ASCII-clean), so byte indexing and `String.length` coincide.
Caller-supplied capabilities (the JSON backend's printer, the wall clock read
by `datetime`, the output sink, the filesystem used by includes) are explicit
parameters of the model.
-/

namespace LatticeC

/-- Error codes of `enum lattice_error_code`. -/
inductive ErrCode where
  | unknown | alloc | io | opts | json | syntax_ | type_ | value_ | name_ | includ
deriving DecidableEq, Repr

/-- Error record `lattice_error`: line, code, message, optional include file tag. -/
structure Err where
  line : Nat
  code : ErrCode
  message : String
  file : Option String := none
deriving DecidableEq, Repr

/-- Type tags of `lattice_type`, in C enum order (used by `<` comparisons). -/
inductive LType where
  | null | boolean | number | str | array | object
deriving DecidableEq, Repr

/-- Numeric rank of a type tag, as the C enum value. -/
def LType.rank : LType → Nat
  | .null => 0 | .boolean => 1 | .number => 2 | .str => 3 | .array => 4 | .object => 5

/-- Abstract JSON value handled through the `lattice_iface` capability. -/
inductive LValue where
  | null
  | boolean (b : Bool)
  | number (n : Rat)
  | str (s : String)
  | array (items : List LValue)
  | object (entries : List (String × LValue))
deriving Repr

/-- Type tag of a value (`iface.type`). -/
def LValue.ltype : LValue → LType
  | .null => .null
  | .boolean _ => .boolean
  | .number _ => .number
  | .str _ => .str
  | .array _ => .array
  | .object _ => .object

/-- Length capability (`iface.length`): string bytes, array size, object size,
0 for scalars (the backends return 0 outside string/array/object). -/
def LValue.len : LValue → Nat
  | .str s => s.length
  | .array items => items.length
  | .object entries => entries.length
  | _ => 0

/-- Array indexing capability (`iface.get` with an array index). -/
def LValue.getArr (v : LValue) (i : Nat) : LValue :=
  match v with
  | .array items => items.getD i .null
  | _ => .null

/-- Object key lookup capability (`iface.get` with an object key); first match. -/
def LValue.getObj (v : LValue) (key : String) : Option LValue :=
  match v with
  | .object entries => (entries.find? (fun e => e.1 = key)).map (·.2)
  | _ => none

/-- Object key list capability (`iface.keys`). -/
def LValue.keyList : LValue → List String
  | .object entries => entries.map (·.1)
  | _ => []

/-- Truthiness, translated from `value_truthy`. -/
def valueTruthy : LValue → Bool
  | .null => false
  | .boolean b => b
  | .number n => n ≠ 0
  | .str s => s ≠ ""
  | .array items => items.length > 0
  | .object entries => entries.length > 0

/-- Equality rule, translated from `value_eq`: same type required; null equal;
booleans and numbers compared as numbers; strings byte-equal; containers
always unequal. -/
def valueEq : LValue → LValue → Bool
  | .null, .null => true
  | .boolean a, .boolean b => a = b
  | .number a, .number b => a = b
  | .str a, .str b => a = b
  | _, _ => false

/-! C character classification (`ctype.h`, default locale, ASCII). -/

def cIsDigit (c : Char) : Bool := '0' ≤ c && c ≤ '9'
def cIsUpper (c : Char) : Bool := 'A' ≤ c && c ≤ 'Z'
def cIsLower (c : Char) : Bool := 'a' ≤ c && c ≤ 'z'
def cIsAlpha (c : Char) : Bool := cIsUpper c || cIsLower c
def cIsAlnum (c : Char) : Bool := cIsAlpha c || cIsDigit c
def cIsSpace (c : Char) : Bool :=
  c = ' ' || c = '\t' || c = '\n' || c = '\x0b' || c = '\x0c' || c = '\r'
def cIsXdigit (c : Char) : Bool :=
  cIsDigit c || ('a' ≤ c && c ≤ 'f') || ('A' ≤ c && c ≤ 'F')
def cIsPunct (c : Char) : Bool :=
  '!' ≤ c && c ≤ '~' && !cIsAlnum c
def cToLower (c : Char) : Char :=
  if cIsUpper c then Char.ofNat (c.toNat + 32) else c
def cToUpper (c : Char) : Char :=
  if cIsLower c then Char.ofNat (c.toNat - 32) else c
def hexVal (c : Char) : Nat :=
  if c ≤ '9' then c.toNat - '0'.toNat else 10 + (cToLower c).toNat - 'a'.toNat

/-- Comparison of C strings (`strcmp`), by unsigned byte values. -/
def strcmpModel (a b : List Char) : Int :=
  match a, b with
  | [], [] => 0
  | [], _ => -1
  | _, [] => 1
  | x :: xs, y :: ys =>
    if x.toNat < y.toNat then -1
    else if y.toNat < x.toNat then 1
    else strcmpModel xs ys

/-- Decimal digit run: value accumulated left to right, plus count and rest. -/
def digitsRun : List Char → Nat → Nat → (Nat × Nat × List Char)
  | c :: rest, acc, cnt =>
    if cIsDigit c then digitsRun rest (acc * 10 + (c.toNat - '0'.toNat)) (cnt + 1)
    else (acc, cnt, c :: rest)
  | [], acc, cnt => (acc, cnt, [])

/-- Model of C `atof`/`strtod` on decimal inputs: optional whitespace and sign,
integer part, optional fraction, optional exponent (needing at least one
digit).  Hexadecimal floats and inf/nan spellings are outside the model; no
caller in this development produces them. -/
def atofModel (s : String) : Rat :=
  let cs := s.data.dropWhile cIsSpace
  let (sign, cs) : Rat × List Char :=
    match cs with
    | '-' :: rest => (-1, rest)
    | '+' :: rest => (1, rest)
    | _ => (1, cs)
  let (ip, ipCnt, cs) := digitsRun cs 0 0
  let (fp, fpCnt, cs) :=
    match cs with
    | '.' :: rest => digitsRun rest 0 0
    | _ => (0, 0, cs)
  if ipCnt = 0 ∧ fpCnt = 0 then 0 else
  let mant : Rat := (ip : Rat) + (fp : Rat) / ((10 : Rat) ^ fpCnt)
  let expPart : Rat :=
    match cs with
    | e :: rest =>
      if e = 'e' ∨ e = 'E' then
        let (esign, rest) : Int × List Char :=
          match rest with
          | '-' :: r => (-1, r)
          | '+' :: r => (1, r)
          | _ => (1, rest)
        let (ev, evCnt, _) := digitsRun rest 0 0
        if evCnt = 0 then 1 else (10 : Rat) ^ (esign * (ev : Int))
      else 1
    | [] => 1
  sign * mant * expPart

/-! Method dispatch: the perfect hash from lib/lattice.c. -/

/-- Byte values of the C translation table `hash_trans`. -/
def hashTrans : List Nat := "UTQFHY[J^]LVZCAD@S\\WXGPINEOBKR_M".data.map Char.toNat

/-- Translation of `hash`: the C walks the string with one pointer while the
anchor stays put, so the parity test `(s - str) & 1` is the parity of the
character position (odd positions update `s1`, even ones `s2`). -/
def latticeHash (s : String) : Nat :=
  let p := s.data.enum.foldl
    (fun (p : Nat × Nat) ic =>
      let code := ic.2.toNat % 32
      if ic.1 % 2 = 1 then ((hashTrans.getD (Nat.xor p.1 code) 0) % 32, p.2)
      else (p.1, (hashTrans.getD (Nat.xor p.2 code) 0) % 32))
    (0, 0)
  Nat.xor p.1 (p.2 * 8)

/-- Perfect-hash table `methods`: stored name and arity per occupied slot. -/
def methodsTable : Nat → Option (String × Nat)
  | 0xad => some ("boolean", 0)
  | 0x31 => some ("contains", 1)
  | 0x3d => some ("find", 1)
  | 0xa4 => some ("datetime", 0)
  | 0xc4 => some ("join", 1)
  | 0x2c => some ("keys", 0)
  | 0xd9 => some ("length", 0)
  | 0x8c => some ("lower", 0)
  | 0x34 => some ("nan", 0)
  | 0x7e => some ("number", 0)
  | 0x97 => some ("real", 0)
  | 0x1d => some ("repeat", 1)
  | 0x58 => some ("replace", 2)
  | 0x76 => some ("reverse", 0)
  | 0x24 => some ("round", 0)
  | 0xc8 => some ("sort", 0)
  | 0x50 => some ("string", 0)
  | 0xe5 => some ("type", 0)
  | 0x09 => some ("upper", 0)
  | 0x02 => some ("values", 0)
  | _ => none

/-- Names of the type tags (the `types` array). -/
def typeName : LType → String
  | .null => "null" | .boolean => "boolean" | .number => "number"
  | .str => "string" | .array => "array" | .object => "object"

/-- External collaborators of the engine that the core reaches through
callbacks: `now` models the `strftime(localtime(time(NULL)))` call made by the
`datetime` method (wall clock, locale and the 1 KiB formatting buffer live in
the oracle), and `print` models the JSON backend's `iface.print`. -/
structure Env where
  now : String → String
  print : LValue → String

/-- Rounding of C `round`: halfway cases away from zero. -/
def ratRound (q : Rat) : Rat := if 0 ≤ q then ((q + 1/2).floor : Int) else ((q - 1/2).ceil : Int)

/-- Conversion of a whole double to `uint64_t` as the bitwise operators do;
the in-range cases are exact, out-of-range casts (undefined in C) are modelled
by the wrap the reference platform produces for nonnegative values. -/
def toU64 (q : Rat) : Nat := (q.floor % (2 ^ 64 : Int)).toNat

/-- Truncation used when a double is cast to `size_t` (e.g. `repeat` counts);
negative values are undefined in C and modelled as 0 here. -/
def toSizeT (q : Rat) : Nat := q.floor.toNat

/-- Translation of `method` (the method catalog).  Dispatch hashes the name
into the perfect-hash table; a missing or colliding slot falls back to null. -/
def latticeMethod (env : Env) (name : String) (this : LValue) (args : List LValue)
    (line : Nat) : Except Err LValue :=
  let id := latticeHash name
  match methodsTable id with
  | none => .ok .null
  | some m =>
    if m.1 ≠ name then .ok .null
    else if args.length ≠ m.2 then
      .error ⟨line, .value_,
        if args.length > m.2 then "too many arguments to method"
        else "not enough arguments to method", none⟩
    else if id = 0xad then            -- boolean
      .ok (.boolean (valueTruthy this))
    else if id = 0x31 ∨ id = 0x3d then -- contains / find
      if this.ltype.rank < 3 then .ok .null
      else
        match this with
        | .str s =>
          -- The C guard is `iface.type(args[0] != LATTICE_TYPE_STRING)`: the
          -- misplaced parenthesis compares the argument POINTER with the type
          -- tag and hands the resulting 0/1 to `iface.type`, a wild read with
          -- no defined outcome.  The model keeps the evidently intended guard
          -- (non-string argument yields null) and then translates the search
          -- loop verbatim: its hit condition is the raw value of
          -- `strncmp(this_str + i, search_str, search_len)`, which is nonzero
          -- exactly when the needle does NOT match at position i.
          match args.getD 0 .null with
          | .str x =>
            let hitIdx := (List.range s.length).find?
              (fun i => !(x.data.isPrefixOf (s.data.drop i)))
            let inIdx : Rat := match hitIdx with | some i => (i : Rat) | none => -1
            if id = 0x31 then .ok (.boolean (decide (0 ≤ inIdx)))
            else .ok (.number inIdx)
          | _ => .ok .null
        | _ =>
          -- Array or object receiver: `this_str` stays NULL and the loop
          -- compares elements with `value_eq` (an object is walked through the
          -- backend's positional get, as cJSON does).
          let elems : List LValue :=
            match this with
            | .array items => items
            | .object entries => entries.map (·.2)
            | _ => []
          let hitIdx := (List.range this.len).find?
            (fun i => valueEq (elems.getD i .null) (args.getD 0 .null))
          let inIdx : Rat := match hitIdx with | some i => (i : Rat) | none => -1
          if id = 0x31 then .ok (.boolean (decide (0 ≤ inIdx)))
          else .ok (.number inIdx)
    else if id = 0xa4 then            -- datetime
      match this with
      | .str fmt => .ok (.str (env.now fmt))
      | _ => .ok .null
    else if id = 0xc4 then            -- join
      match this, args.getD 0 .null with
      | .array items, .str sep =>
        -- The C sizes the result with `(count - 1) * strlen(joiner)`, which
        -- wraps for an empty array; the model joins to "" there.
        let strs := items.map (fun it => match it with | .str s => some s | _ => none)
        if strs.all (·.isSome) then
          .ok (.str (String.intercalate sep (strs.map (·.getD ""))))
        else .ok .null
      | _, _ => .ok .null
    else if id = 0x2c ∨ id = 0x02 then -- keys / values
      if this.ltype.rank < 4 then .ok .null
      else
        match this with
        | .object entries =>
          if id = 0x2c then .ok (.array (entries.map (fun e => .str e.1)))
          else .ok (.array (entries.map (fun e =>
            (this.getObj e.1).getD .null)))
        | .array items =>
          -- Keys: the C puns the double index through a pointer and back, so
          -- the numeric indices survive.  Values: the same pun feeds the raw
          -- double BITS to the array get, which is index 0 for i = 0 and a
          -- huge out-of-range index for every i ≥ 1 (the backend then drops
          -- the null item), so only the first element survives.
          if id = 0x2c then .ok (.array ((List.range items.length).map (fun i => .number i)))
          else .ok (.array (if items.isEmpty then [] else [items.getD 0 .null]))
        | _ => .ok .null
    else if id = 0xd9 then            -- length
      if this.ltype.rank < 3 then .ok .null
      else .ok (.number this.len)
    else if id = 0x8c ∨ id = 0x09 then -- lower / upper
      match this with
      | .str s => .ok (.str ⟨s.data.map (if id = 0x8c then cToLower else cToUpper)⟩)
      | _ => .ok .null
    else if id = 0x34 then            -- nan (rationals model finite doubles)
      match this with
      | .number _ => .ok (.boolean false)
      | _ => .ok .null
    else if id = 0x7e then            -- number
      match this with
      | .null => .ok (.number 0)
      | .boolean b => .ok (.number (if b then 1 else 0))
      | .number n => .ok (.number n)
      | .str s => .ok (.number (atofModel s))
      | _ => .ok .null
    else if id = 0x97 then            -- real
      match this with
      | .number _ => .ok (.boolean true)
      | _ => .ok .null
    else if id = 0x1d then            -- repeat
      match args.getD 0 .null with
      | .number n =>
        let times := toSizeT n
        match this with
        | .str s => .ok (.str ⟨(List.replicate times s.data).flatten⟩)
        | .array items => .ok (.array ((List.replicate times items).flatten))
        | _ => .ok .null
      | _ => .ok .null
    else if id = 0x58 ∨ id = 0x76 ∨ id = 0xc8 then -- replace / reverse / sort: todo in C
      .ok .null
    else if id = 0x24 then            -- round
      match this with
      | .number n => .ok (.number (ratRound n))
      | _ => .ok .null
    else if id = 0x50 then            -- string
      .ok (.str (env.print this))
    else if id = 0xe5 then            -- type
      .ok (.str (typeName this.ltype))
    else .ok .null

end LatticeC

namespace LatticeC

/-! Expression AST (`struct expr_token`).  Binary and unary operators are
grouped by an operator tag; each node carries the source line recorded by the
parser.  The C threads children of array/object/argument nodes through `next`
pointers; the model uses a mutual list type so that all recursion stays
structural. -/

/-- Binary operator tags of the expression AST. -/
inductive BinOp where
  | either | both | eq | neq | gt | gte | lt | lte
  | add | sub | mul | div | quot | mod | exp
  | band | bor | bxor
deriving DecidableEq, Repr

/-- Unary operator tags of the expression AST. -/
inductive UnOp where
  | comp | bnot | neg | pos
deriving DecidableEq, Repr

mutual

inductive Expr where
  | nullE (line : Nat)
  | booleanE (line : Nat) (b : Bool)
  | numberE (line : Nat) (n : Rat)
  | strE (line : Nat) (s : String)
  | arrE (line : Nat) (items : ExprList)
  | objE (line : Nat) (keys vals : ExprList)
  | binE (line : Nat) (op : BinOp) (a b : Expr)
  | unE (line : Nat) (op : UnOp) (a : Expr)
  | rootE (line : Nat)
  | identE (line : Nat) (name : String)
  | lookupE (line : Nat) (obj : Expr) (name : String)
  | methodE (line : Nat) (obj : Expr) (name : String) (args : ExprList)
  | indexE (line : Nat) (coll : Expr) (i : Expr) (j : OExpr)
  | ternaryE (line : Nat) (c a b : Expr)
deriving Repr

inductive ExprList where
  | nil
  | cons (head : Expr) (tail : ExprList)
deriving Repr

inductive OExpr where
  | noneE
  | someE (e : Expr)
deriving Repr

end

/-- Source line stored in an expression node. -/
def Expr.line : Expr → Nat
  | .nullE l | .booleanE l _ | .numberE l _ | .strE l _ | .arrE l _
  | .objE l _ _ | .binE l _ _ _ | .unE l _ _ | .rootE l | .identE l _
  | .lookupE l _ _ | .methodE l _ _ _ | .indexE l _ _ _ | .ternaryE l _ _ _ => l

/-- Truncation toward zero (the C cast of a double to an integer). -/
def ratTrunc (q : Rat) : Int := if 0 ≤ q then q.floor else q.ceil

/-- Model of C `fmod` on finite values with nonzero divisor; `fmod(x, 0)` is
NaN in C and 0 here (never evaluated by the theorems). -/
def fmodModel (x y : Rat) : Rat := if y = 0 then 0 else x - y * (ratTrunc (x / y) : Int)

/-- Model of C `pow` where the exponent is a whole number; a fractional
exponent generally has an irrational value, outside the rational model (no
claim evaluates one). -/
def powModel (x y : Rat) : Rat := if y.den = 1 then x ^ y.num else 0

/-- Arithmetic dispatch for the number × number branch of `eval_expr`. -/
def arithOp : BinOp → Rat → Rat → Rat
  | .add, x, y => x + y
  | .sub, x, y => x - y
  | .mul, x, y => x * y
  | .div, x, y => x / y
  | .quot, x, y => ((x / y).floor : Int)
  | .mod, x, y => fmodModel x y
  | .exp, x, y => powModel x y
  | _, _, _ => 0

/-- Body of the `EXPR_INDEX` case of `eval_expr`, after the up-to-three
operand evaluations.  `exprLine`, `iLine` and `jLine` are the lines of the
whole node and of the one or two index expressions, matching the lines the C
passes to `set_error`. -/
def evalIndex (exprLine iLine jLine : Nat) (lhs rhs : LValue) (rhs2 : Option LValue) :
    Except Err LValue :=
  if lhs.ltype = .str ∨ lhs.ltype = .array then
    match rhs with
    | .number rn =>
      if rn.den ≠ 1 then .error ⟨iLine, .value_, "indices must be whole numbers", none⟩
      else
        let len : Nat := lhs.len
        let adj : Int := if rn < 0 then rn.num + len else rn.num
        match rhs2 with
        | some r2 =>
          -- The C checks the second index for wholeness but never for being a
          -- number; for a non-number it reads the union's `.number` member as
          -- a punned double, which is essentially never whole, so the model
          -- takes the wholeness failure for non-numbers.
          match r2 with
          | .number r2n =>
            if r2n.den ≠ 1 then .error ⟨jLine, .value_, "indices must be whole numbers", none⟩
            else
              let adj2 : Int := if r2n < 0 then r2n.num + len else r2n.num
              -- The cast `(size_t) rhs_number` of a still-negative adjusted
              -- index is undefined in C; on the reference platform it exceeds
              -- the length, so the clamp sends it to `len` like any other
              -- overlarge index.
              let i : Nat := if adj < 0 ∨ len ≤ adj then len else adj.toNat
              let j0 : Nat := if adj2 < 0 ∨ len ≤ adj2 then len else adj2.toNat
              let j : Nat := if j0 < i then i else j0
              match lhs with
              | .str s => .ok (.str ⟨(s.data.drop i).take (j - i)⟩)
              | .array items => .ok (.array ((items.drop i).take (j - i)))
              | _ => .ok .null
          | _ => .error ⟨jLine, .value_, "indices must be whole numbers", none⟩
        | none =>
          if adj < 0 ∨ len ≤ adj then
            .error ⟨iLine, .value_, "index out of range", none⟩
          else
            match lhs with
            | .str s => .ok (.str ⟨[s.data.getD adj.toNat (Char.ofNat 0)]⟩)
            | .array items => .ok (items.getD adj.toNat .null)
            | _ => .ok .null
    | _ => .error ⟨iLine, .type_, "index must be a number", none⟩
  else if lhs.ltype = .object then
    match rhs2 with
    | some _ => .error ⟨jLine, .type_, "cannot range-index an object", none⟩
    | none =>
      match rhs with
      | .str key =>
        match lhs.getObj key with
        | some v => .ok v
        | none => .error ⟨iLine, .value_, "index out of range", none⟩
      | _ => .error ⟨iLine, .type_, "index must be a string", none⟩
  else .error ⟨exprLine, .type_, "can only index string, array, or object", none⟩

mutual

/-- Translation of `eval_expr`.  The scope `ctx` doubles as the value of `@`:
the C clones whatever scope it was handed (the root is not threaded
separately).  The fuel makes the mutual recursion structural (the C recursion
is bounded by the AST depth, so any fuel at least that deep agrees with it);
all theorems below evaluate with ample fuel. -/
def evalExpr (fuel : Nat) (env : Env) (e : Expr) (ctx : LValue) : Except Err LValue :=
  match fuel with
  | 0 => .error ⟨0, .unknown, "model: fuel exhausted", none⟩
  | fuel + 1 =>
  match e with
  | .nullE _ => .ok .null
  | .booleanE _ b => .ok (.boolean b)
  | .numberE _ n => .ok (.number n)
  | .strE _ s => .ok (.str s)
  | .arrE _ items => do
    let vs ← evalList fuel env items ctx
    .ok (.array vs)
  | .objE _ keys vals => do
    let es ← evalObjEntries fuel env keys vals ctx
    .ok (.object es)
  | .binE line op a b =>
    match op with
    | .either | .both =>
      match evalExpr fuel env a ctx with
      | .error e => .error e
      | .ok lhs =>
        if (op = .either) = (valueTruthy lhs = true) then .ok lhs
        else evalExpr fuel env b ctx
    | .eq | .neq =>
      match evalExpr fuel env a ctx with
      | .error e => .error e
      | .ok lhs =>
        match evalExpr fuel env b ctx with
        | .error e => .error e
        | .ok rhs => .ok (.boolean ((op = .eq) = (valueEq lhs rhs = true)))
    | .gt | .gte | .lt | .lte =>
      match evalExpr fuel env a ctx with
      | .error e => .error e
      | .ok lhs =>
        match evalExpr fuel env b ctx with
        | .error e => .error e
        | .ok rhs =>
          if lhs.ltype ≠ rhs.ltype then
            .error ⟨line, .type_, "can only compare similar types", none⟩
          else if lhs.ltype ≠ .number ∧ lhs.ltype ≠ .str then
            .error ⟨line, .type_, "can only compare number or string", none⟩
          else
            let cmp : Int :=
              match lhs, rhs with
              | .str s1, .str s2 => strcmpModel s1.data s2.data
              | .number x, .number y => if x < y then -1 else if y < x then 1 else 0
              | _, _ => 0
            .ok (.boolean (decide (
              (cmp < 0 ∧ (op = .lt ∨ op = .lte)) ∨
              (0 < cmp ∧ (op = .gt ∨ op = .gte)) ∨
              (cmp = 0 ∧ (op = .lte ∨ op = .gte)))))
    | .add | .sub | .mul | .div | .quot | .mod | .exp =>
      match evalExpr fuel env a ctx with
      | .error e => .error e
      | .ok lhs =>
        let batLhsSeq := lhs.ltype = .str ∨ lhs.ltype = .array
        if lhs.ltype ≠ .number ∧ ¬(batLhsSeq ∧ (op = .add ∨ op = .mul)) then
          .error ⟨a.line, .type_, "operands must be numbers", none⟩
        else
          match evalExpr fuel env b ctx with
          | .error e => .error e
          | .ok rhs =>
            if ¬(batLhsSeq ∧ op = .add) ∧ rhs.ltype ≠ .number then
              .error ⟨b.line, .type_, "operands must be numbers", none⟩
            else if batLhsSeq ∧ op = .add then
              if lhs.ltype ≠ rhs.ltype then
                .error ⟨line, .type_, "sequence concatenation requires similar types", none⟩
              else
                match lhs, rhs with
                | .str s1, .str s2 => .ok (.str (s1 ++ s2))
                | .array i1, .array i2 => .ok (.array (i1 ++ i2))
                | _, _ => .ok .null
            else if batLhsSeq ∧ op = .mul then
              match rhs with
              | .number rn =>
                if rn.den ≠ 1 then
                  .error ⟨b.line, .value_, "sequence multiplication rhs must be whole", none⟩
                else
                  let n := toSizeT rn
                  match lhs with
                  | .str s => .ok (.str ⟨(List.replicate n s.data).flatten⟩)
                  | .array items => .ok (.array ((List.replicate n items).flatten))
                  | _ => .ok .null
              | _ => .ok .null
            else
              match lhs, rhs with
              | .number x, .number y => .ok (.number (arithOp op x y))
              | _, _ => .ok .null
    | .band | .bor | .bxor =>
      match evalExpr fuel env a ctx with
      | .error e => .error e
      | .ok lhs =>
        match lhs with
        | .number x =>
          if x.den ≠ 1 then
            .error ⟨a.line, .value_, "bitwise operands must be whole numbers", none⟩
          else
            match evalExpr fuel env b ctx with
            | .error e => .error e
            | .ok rhs =>
              match rhs with
              | .number y =>
                if y.den ≠ 1 then
                  .error ⟨b.line, .value_, "bitwise operands must be whole numbers", none⟩
                else
                  let xv := toU64 x
                  let yv := toU64 y
                  let r : Nat :=
                    match op with
                    | .band => Nat.land xv yv
                    | .bor => Nat.lor xv yv
                    | _ => Nat.xor xv yv
                  .ok (.number r)
              | _ => .error ⟨b.line, .type_, "bitwise operands must be numbers", none⟩
        | _ => .error ⟨a.line, .type_, "bitwise operands must be numbers", none⟩
  | .unE line op a =>
    match op with
    | .comp =>
      match evalExpr fuel env a ctx with
      | .error e => .error e
      | .ok lhs =>
        match lhs with
        | .number x =>
          if x.den ≠ 1 then
            .error ⟨a.line, .value_, "bitwise operands must be whole numbers", none⟩
          else .ok (.number ((2 ^ 64 - 1) - toU64 x : Nat))
        | _ => .error ⟨a.line, .type_, "bitwise operands must be numbers", none⟩
    | .bnot =>
      match evalExpr fuel env a ctx with
      | .error e => .error e
      | .ok lhs => .ok (.boolean (!valueTruthy lhs))
    | .neg | .pos =>
      match evalExpr fuel env a ctx with
      | .error e => .error e
      | .ok lhs =>
        match lhs with
        | .number x => .ok (.number (if op = .neg then -x else x))
        | _ => .error ⟨line, .type_, "operand must be number", none⟩
  | .rootE _ => .ok ctx
  | .identE line name =>
    match ctx with
    | .object _ =>
      match ctx.getObj name with
      | some v => .ok v
      | none => .error ⟨line, .name_, "\x27" ++ name ++ "\x27 is undefined", none⟩
    | _ => .error ⟨line, .type_, "can only lookup properties of object", none⟩
  | .lookupE line obj name =>
    match evalExpr fuel env obj ctx with
    | .error e => .error e
    | .ok lhs =>
      match lhs with
      | .object _ =>
        match lhs.getObj name with
        | some v => .ok v
        | none => .error ⟨line, .name_, "\x27" ++ name ++ "\x27 is undefined", none⟩
      | _ => .error ⟨line, .type_, "can only lookup properties of object", none⟩
  | .methodE line obj name args =>
    match evalExpr fuel env obj ctx with
    | .error e => .error e
    | .ok lhs =>
      match evalList fuel env args ctx with
      | .error e => .error e
      | .ok avs => latticeMethod env name lhs avs line
  | .indexE line coll i j =>
    match evalExpr fuel env coll ctx with
    | .error e => .error e
    | .ok lhs =>
      match evalExpr fuel env i ctx with
      | .error e => .error e
      | .ok rhs =>
        match j with
        | .noneE => evalIndex line i.line 0 lhs rhs none
        | .someE je =>
          match evalExpr fuel env je ctx with
          | .error e => .error e
          | .ok rhs2 => evalIndex line i.line je.line lhs rhs (some rhs2)
  | .ternaryE _ c a b =>
    match evalExpr fuel env c ctx with
    | .error e => .error e
    | .ok cv => if valueTruthy cv then evalExpr fuel env a ctx else evalExpr fuel env b ctx
termination_by structural fuel

/-- Left-to-right evaluation of an expression chain (array items, method
arguments); the first failure aborts. -/
def evalList (fuel : Nat) (env : Env) (es : ExprList) (ctx : LValue) : Except Err (List LValue) :=
  match fuel with
  | 0 => .error ⟨0, .unknown, "model: fuel exhausted", none⟩
  | fuel + 1 =>
  match es with
  | .nil => .ok []
  | .cons e rest =>
    match evalExpr fuel env e ctx with
    | .error err => .error err
    | .ok v =>
      match evalList fuel env rest ctx with
      | .error err => .error err
      | .ok vs => .ok (v :: vs)
termination_by structural fuel

/-- Translation of the `EXPR_OBJECT` loop of `eval_expr`: the key chain is
walked while `v` tracks the value chain, and the null-key branch `continue`s
WITHOUT advancing `v`, so a null key leaves its value for the next key.  The
value chain cannot run out for parser-built nodes (both chains have the same
length and `v` advances at most once per key), so the `nil` fallback is
unreachable there. -/
def evalObjEntries (fuel : Nat) (env : Env) (keys vals : ExprList) (ctx : LValue) :
    Except Err (List (String × LValue)) :=
  match fuel with
  | 0 => .error ⟨0, .unknown, "model: fuel exhausted", none⟩
  | fuel + 1 =>
  match keys with
  | .nil => .ok []
  | .cons k krest =>
    match evalExpr fuel env k ctx with
    | .error e => .error e
    | .ok kv =>
      match kv with
      | .null => evalObjEntries fuel env krest vals ctx
      | .str ks =>
        match vals with
        | .cons v vrest =>
          match evalExpr fuel env v ctx with
          | .error e => .error e
          | .ok vv =>
            match evalObjEntries fuel env krest vrest ctx with
            | .error e => .error e
            | .ok rest => .ok ((ks, vv) :: rest)
        | .nil => .error ⟨0, .unknown, "unreachable: object literal value chain exhausted", none⟩
      | _ => .error ⟨k.line, .type_, "object key must be string or null", none⟩
termination_by structural fuel

end

end LatticeC

namespace LatticeC

/-! Expression lexer (`lex_expr`). -/

/-- Lexeme payloads of `enum expr_lexeme_type`. -/
inductive LexT where
  | nullL | booleanL (b : Bool) | numberL (n : Rat) | stringL (s : String)
  | lparenL | rparenL | lbrackL | rbrackL | lbraceL | rbraceL
  | commaL | dotL | colonL
  | eitherL | bothL | notL | eqL | neqL | gtL | gteL | ltL | lteL
  | addL | subL | mulL | divL | quotL | modL | expL
  | andL | orL | xorL | compL | rootL | identL (name : String) | optL
deriving DecidableEq, Repr

/-- Lexeme with the line it was read on. -/
structure Lexeme where
  line : Nat
  t : LexT
deriving DecidableEq, Repr

/-- Bracket-nesting delta applied after a lexeme is added. -/
def bracketDelta : LexT → Int
  | .lparenL | .lbrackL | .lbraceL => 1
  | .rparenL | .rbrackL | .rbraceL => -1
  | _ => 0

/-- String-literal scan of `lex_expr`: consumes up to the closing quote,
decoding escapes in place.  The C has no end-of-input test here and would read
past the buffer; the model reports that case as an unreachable-marker error. -/
def lexString (fuel : Nat) (rest : List Char) (quote : Char) (line : Nat)
    (acc : List Char) : Except Err (List Char × List Char) :=
  match fuel with
  | 0 => .error ⟨line, .unknown, "model: fuel exhausted", none⟩
  | fuel + 1 =>
    match rest with
    | [] => .error ⟨line, .unknown, "model: read past unterminated string literal", none⟩
    | c :: rest' =>
      if c = quote then .ok (acc.reverse, rest')
      else if c = '\\' then
        match rest' with
        | [] => .error ⟨line, .unknown, "model: read past unterminated string literal", none⟩
        | e :: rest'' =>
          if e = 'a' then lexString fuel rest'' quote line ('\x07' :: acc)
          else if e = 'b' then lexString fuel rest'' quote line ('\x08' :: acc)
          else if e = 'e' then lexString fuel rest'' quote line ('\x1b' :: acc)
          else if e = 'f' then lexString fuel rest'' quote line ('\x0c' :: acc)
          else if e = 'n' then lexString fuel rest'' quote line ('\n' :: acc)
          else if e = 'r' then lexString fuel rest'' quote line ('\r' :: acc)
          else if e = 't' then lexString fuel rest'' quote line ('\t' :: acc)
          else if e = 'v' then lexString fuel rest'' quote line ('\x0b' :: acc)
          else if e = '\\' then lexString fuel rest'' quote line ('\\' :: acc)
          else if e = '\x27' then lexString fuel rest'' quote line ('\x27' :: acc)
          else if e = '"' then lexString fuel rest'' quote line ('"' :: acc)
          else if e = 'x' then
            match rest'' with
            | hi :: lo :: rest3 =>
              if cIsXdigit hi ∧ cIsXdigit lo then
                lexString fuel rest3 quote line (Char.ofNat (hexVal hi * 16 + hexVal lo) :: acc)
              else .error ⟨line, .syntax_, "invalid hex literal", none⟩
            | _ => .error ⟨line, .syntax_, "invalid hex literal", none⟩
          else .error ⟨line, .syntax_, "invalid string escape", none⟩
      else lexString fuel rest' quote line (c :: acc)

/-- Digit loop of the numeric scan for an explicit base (2, 8 or 16). -/
def nonDecDigit (base : Nat) (c : Char) : Bool :=
  (base = 16 && cIsXdigit c) || ('0' ≤ c && c.toNat < '0'.toNat + min base 10)

/-- Value of one digit as the C accumulation computes it. -/
def digitValue (c : Char) : Nat :=
  if c ≤ '9' then c.toNat - '0'.toNat else 10 + (cToLower c).toNat - 'a'.toNat

/-- Terminator test after a numeric literal: end of input, punctuation or
whitespace. -/
def numTermOk : List Char → Bool
  | [] => true
  | c :: _ => cIsPunct c || cIsSpace c

/-- Numeric-literal scan of `lex_expr`, starting from first digit `c`. -/
def lexNumber (c : Char) (rest : List Char) (line : Nat) :
    Except Err (Rat × List Char) :=
  let nonDec : Nat → List Char → Except Err (Rat × List Char) := fun base r =>
    let ds := r.takeWhile (nonDecDigit base)
    let r' := r.dropWhile (nonDecDigit base)
    if numTermOk r' then
      .ok ((ds.foldl (fun acc d => acc * base + digitValue d) 0 : Nat), r')
    else .error ⟨line, .syntax_, "unexpected character", none⟩
  let dec : List Char → Except Err (Rat × List Char) := fun r =>
    let ds := r.takeWhile cIsDigit
    let r1 := r.dropWhile cIsDigit
    let fr : List Char × List Char :=
      match r1 with
      | '.' :: rr => ('.' :: rr.takeWhile cIsDigit, rr.dropWhile cIsDigit)
      | _ => ([], r1)
    let finish : List Char → List Char → Except Err (Rat × List Char) := fun slice r' =>
      if numTermOk r' then .ok (atofModel ⟨c :: slice⟩, r')
      else .error ⟨line, .syntax_, "unexpected character", none⟩
    match fr.2 with
    | e :: rr =>
      if e = 'E' ∨ e = 'e' then
        let sg : List Char × List Char :=
          match rr with
          | '+' :: q => (['+'], q)
          | '-' :: q => (['-'], q)
          | _ => ([], rr)
        let es := sg.2.takeWhile cIsDigit
        if es.isEmpty then .error ⟨line, .syntax_, "exponent cannot be empty", none⟩
        else finish (ds ++ fr.1 ++ e :: sg.1 ++ es) (sg.2.dropWhile cIsDigit)
      else finish (ds ++ fr.1) fr.2
    | [] => finish (ds ++ fr.1) []
  if c = '0' then
    match rest with
    | 'b' :: r => nonDec 2 r
    | 'o' :: r => nonDec 8 r
    | 'x' :: r => nonDec 16 r
    | d :: _ =>
      if cIsDigit d then .error ⟨line, .syntax_, "decimal literal with leading zero", none⟩
      else dec rest
    | [] => dec rest
  else dec rest

/-- Identifier scan: the reserved words lex as literal tokens. -/
def lexIdent (c : Char) (rest : List Char) : LexT × List Char :=
  let idc : Char → Bool := fun ch => cIsAlnum ch || ch = '_'
  let name : String := ⟨c :: rest.takeWhile idc⟩
  let r' := rest.dropWhile idc
  if name = "null" then (.nullL, r')
  else if name = "true" then (.booleanL true, r')
  else if name = "false" then (.booleanL false, r')
  else (.identL name, r')

/-- Main loop of `lex_expr`: stops at end of input, or at the terminator
sequence when bracket nesting is not positive.  Newlines bump the line
counter; whitespace is skipped. -/
def lexExprLoop (fuel : Nat) (rest : List Char) (term : Option (List Char))
    (line : Nat) (brackets : Int) (acc : List Lexeme) :
    Except Err (List Lexeme × List Char × Nat) :=
  match fuel with
  | 0 => .error ⟨line, .unknown, "model: fuel exhausted", none⟩
  | fuel + 1 =>
    match rest with
    | [] => .ok (acc, [], line)
    | c :: rest' =>
      if (match term with
          | some t => t.isPrefixOf (c :: rest') && brackets ≤ 0
          | none => false) then
        .ok (acc, c :: rest', line)
      else
        let push : LexT → List Char → Except Err (List Lexeme × List Char × Nat) :=
          fun t r => lexExprLoop fuel r term line (brackets + bracketDelta t)
            (acc ++ [⟨line, t⟩])
        let two : Char → LexT → LexT → Except Err (List Lexeme × List Char × Nat) :=
          fun c2 tTwo tOne =>
            match rest' with
            | d :: rest'' => if d = c2 then push tTwo rest'' else push tOne rest'
            | [] => push tOne rest'
        if c = '\n' then lexExprLoop fuel rest' term (line + 1) brackets acc
        else if c = '(' then push .lparenL rest'
        else if c = ')' then push .rparenL rest'
        else if c = '[' then push .lbrackL rest'
        else if c = ']' then push .rbrackL rest'
        else if c = '{' then push .lbraceL rest'
        else if c = '}' then push .rbraceL rest'
        else if c = ',' then push .commaL rest'
        else if c = '.' then push .dotL rest'
        else if c = ':' then push .colonL rest'
        else if c = '|' then two '|' .eitherL .orL
        else if c = '&' then two '&' .bothL .andL
        else if c = '^' then push .xorL rest'
        else if c = '~' then push .compL rest'
        else if c = '=' then two '=' .eqL .eqL
        else if c = '!' then two '=' .neqL .notL
        else if c = '>' then two '=' .gteL .gtL
        else if c = '<' then two '=' .lteL .ltL
        else if c = '+' then push .addL rest'
        else if c = '-' then push .subL rest'
        else if c = '*' then two '*' .expL .mulL
        else if c = '/' then two '/' .quotL .divL
        else if c = '%' then push .modL rest'
        else if c = '@' then push .rootL rest'
        else if c = '?' then push .optL rest'
        else if c = '"' ∨ c = '\x27' then
          match lexString (rest'.length + 1) rest' c line [] with
          | .error e => .error e
          | .ok (s, r) => push (.stringL ⟨s⟩) r
        else if cIsDigit c then
          match lexNumber c rest' line with
          | .error e => .error e
          | .ok (n, r) => push (.numberL n) r
        else if cIsAlpha c ∨ c = '_' then
          let p := lexIdent c rest'
          push p.1 p.2
        else if cIsSpace c then lexExprLoop fuel rest' term line brackets acc
        else .error ⟨line, .syntax_, "unexpected character", none⟩

end LatticeC

namespace LatticeC

/-- Conversion from a Lean list to the chain type of the AST. -/
def ExprList.ofList : List Expr → ExprList
  | [] => .nil
  | e :: r => .cons e (ofList r)

/-- Parser results carry the unconsumed lexemes also on failure, because
`parse_expr` decides between "extra tokens" and "unterminated expression" by
looking at where `*lexp` stopped. -/
def PRes : Type := Except (Err × List Lexeme) (Expr × List Lexeme)

/-- Binary-operator table `binary_op` with its precedence bands
`binary_op_prec` (five bands; `**` shares the multiplicative band). -/
def lexBin : LexT → Option (BinOp × Nat)
  | .bothL => some (.both, 0)
  | .eitherL => some (.either, 0)
  | .eqL => some (.eq, 1)
  | .neqL => some (.neq, 1)
  | .ltL => some (.lt, 1)
  | .lteL => some (.lte, 1)
  | .gtL => some (.gt, 1)
  | .gteL => some (.gte, 1)
  | .andL => some (.band, 2)
  | .orL => some (.bor, 2)
  | .xorL => some (.bxor, 2)
  | .addL => some (.add, 3)
  | .subL => some (.sub, 3)
  | .mulL => some (.mul, 4)
  | .divL => some (.div, 4)
  | .quotL => some (.quot, 4)
  | .expL => some (.exp, 4)
  | .modL => some (.mod, 4)
  | _ => none

mutual

/-- Translation of `parse_primary`.  Node lines follow the C's `PARSE_TOK`,
which records the line of the last lexeme matched before construction. -/
def parsePrimary (fuel : Nat) (lxs : List Lexeme) : PRes :=
  match fuel with
  | 0 => .error (⟨0, .unknown, "model: fuel exhausted", none⟩, lxs)
  | fuel + 1 =>
    match lxs with
    | ⟨ln, .nullL⟩ :: r => .ok (.nullE ln, r)
    | ⟨ln, .booleanL b⟩ :: r => .ok (.booleanE ln b, r)
    | ⟨ln, .numberL n⟩ :: r => .ok (.numberE ln n, r)
    | ⟨ln, .stringL s⟩ :: r => .ok (.strE ln s, r)
    | ⟨ln, .rootL⟩ :: r => .ok (.rootE ln, r)
    | ⟨ln, .identL name⟩ :: r => .ok (.identE ln name, r)
    | ⟨ln, .lparenL⟩ :: r =>
      (match parseTernary fuel r with
      | .error e => .error e
      | .ok (tok, r1) =>
        match r1 with
        | ⟨_, .rparenL⟩ :: r2 => .ok (tok, r2)
        | _ => .error (⟨ln, .syntax_, "expected closing parenthesis after group", none⟩, r1))
    | ⟨ln, .lbrackL⟩ :: r =>
      (match r with
      | ⟨ln2, .rbrackL⟩ :: r2 => .ok (.arrE ln2 .nil, r2)
      | _ => parseArrayItems fuel ln [] r)
    | ⟨ln, .lbraceL⟩ :: r =>
      (match r with
      | ⟨ln2, .rbraceL⟩ :: r2 => .ok (.objE ln2 .nil .nil, r2)
      | _ => parseObjItems fuel ln [] [] r)
    | l :: _ => .error (⟨l.line, .syntax_, "expected expression", none⟩, lxs)
    | [] => .error (⟨0, .syntax_, "unexpected end of file", none⟩, [])
termination_by structural fuel

/-- Array-literal item loop; `lastLine` is the line of the last matched
bracket or comma, used by the closing-bracket diagnostic. -/
def parseArrayItems (fuel : Nat) (lastLine : Nat) (acc : List Expr)
    (lxs : List Lexeme) : PRes :=
  match fuel with
  | 0 => .error (⟨0, .unknown, "model: fuel exhausted", none⟩, lxs)
  | fuel + 1 =>
    match parseTernary fuel lxs with
    | .error e => .error e
    | .ok (item, r1) =>
      match r1 with
      | ⟨ln, .commaL⟩ :: r2 => parseArrayItems fuel ln (acc ++ [item]) r2
      | ⟨ln, .rbrackL⟩ :: r2 => .ok (.arrE ln (.ofList (acc ++ [item])), r2)
      | _ => .error (⟨lastLine, .syntax_, "expected closing bracket after array values", none⟩, r1)
termination_by structural fuel

/-- Object-literal entry loop (`key : value` pairs). -/
def parseObjItems (fuel : Nat) (lastLine : Nat) (ks vs : List Expr)
    (lxs : List Lexeme) : PRes :=
  match fuel with
  | 0 => .error (⟨0, .unknown, "model: fuel exhausted", none⟩, lxs)
  | fuel + 1 =>
    match parseTernary fuel lxs with
    | .error e => .error e
    | .ok (k, r1) =>
      match r1 with
      | ⟨lnc, .colonL⟩ :: r2 =>
        (match parseTernary fuel r2 with
        | .error e => .error e
        | .ok (v, r3) =>
          match r3 with
          | ⟨ln, .commaL⟩ :: r4 => parseObjItems fuel ln (ks ++ [k]) (vs ++ [v]) r4
          | ⟨ln, .rbraceL⟩ :: r4 =>
            .ok (.objE ln (.ofList (ks ++ [k])) (.ofList (vs ++ [v])), r4)
          | _ => .error (⟨lnc, .syntax_, "expected closing brace after object entries", none⟩, r3))
      | _ => .error (⟨lastLine, .syntax_, "expected colon after object key", none⟩, r1)
termination_by structural fuel

/-- Translation of `parse_call`: a primary followed by any number of `.ident`
lookups, `.ident(args)` methods and `[i]` / `[i, j]` subscriptions. -/
def parseCall (fuel : Nat) (lxs : List Lexeme) : PRes :=
  match fuel with
  | 0 => .error (⟨0, .unknown, "model: fuel exhausted", none⟩, lxs)
  | fuel + 1 =>
    match parsePrimary fuel lxs with
    | .error e => .error e
    | .ok (tok, r) => parseCallLoop fuel tok r
termination_by structural fuel

/-- Postfix loop of `parse_call`. -/
def parseCallLoop (fuel : Nat) (tok : Expr) (lxs : List Lexeme) : PRes :=
  match fuel with
  | 0 => .error (⟨0, .unknown, "model: fuel exhausted", none⟩, lxs)
  | fuel + 1 =>
    match lxs with
    | ⟨lnDot, .dotL⟩ :: r =>
      (match r with
      | ⟨lnId, .identL name⟩ :: r2 =>
        (match r2 with
        | ⟨lnP, .lparenL⟩ :: r3 =>
          (match r3 with
          | ⟨_, .rparenL⟩ :: r4 => parseCallLoop fuel (.methodE lnId tok name .nil) r4
          | _ => parseArgs fuel lnP tok name lnId [] r3)
        | _ => parseCallLoop fuel (.lookupE lnId tok name) r2)
      | _ => .error (⟨lnDot, .syntax_, "expected identifier after dot", none⟩, r))
    | ⟨lnB, .lbrackL⟩ :: r =>
      (match parseTernary fuel r with
      | .error e => .error e
      | .ok (idx, r1) =>
        match r1 with
        | ⟨lnC, .commaL⟩ :: r2 =>
          (match parseTernary fuel r2 with
          | .error e => .error e
          | .ok (idx2, r3) =>
            match r3 with
            | ⟨lnR, .rbrackL⟩ :: r4 => parseCallLoop fuel (.indexE lnR tok idx (.someE idx2)) r4
            | _ => .error (⟨lnC, .syntax_, "expected closing bracket after subscription", none⟩, r3))
        | ⟨lnR, .rbrackL⟩ :: r2 => parseCallLoop fuel (.indexE lnR tok idx .noneE) r2
        | _ => .error (⟨lnB, .syntax_, "expected closing bracket after subscription", none⟩, r1))
    | _ => .ok (tok, lxs)
termination_by structural fuel

/-- Method-argument loop; ends by handing the method node back to the postfix
loop. -/
def parseArgs (fuel : Nat) (lastLine : Nat) (tok : Expr) (name : String)
    (lnId : Nat) (acc : List Expr) (lxs : List Lexeme) : PRes :=
  match fuel with
  | 0 => .error (⟨0, .unknown, "model: fuel exhausted", none⟩, lxs)
  | fuel + 1 =>
    match parseTernary fuel lxs with
    | .error e => .error e
    | .ok (arg, r1) =>
      match r1 with
      | ⟨ln, .commaL⟩ :: r2 => parseArgs fuel ln tok name lnId (acc ++ [arg]) r2
      | ⟨_, .rparenL⟩ :: r2 =>
        parseCallLoop fuel (.methodE lnId tok name (.ofList (acc ++ [arg]))) r2
      | _ => .error (⟨lastLine, .syntax_, "expected closing parenthesis after arguments", none⟩, r1)
termination_by structural fuel

/-- Translation of `parse_unary` (prefix `+ - ! ~`). -/
def parseUnary (fuel : Nat) (lxs : List Lexeme) : PRes :=
  match fuel with
  | 0 => .error (⟨0, .unknown, "model: fuel exhausted", none⟩, lxs)
  | fuel + 1 =>
    match lxs with
    | ⟨ln, .addL⟩ :: r =>
      (match parseUnary fuel r with
      | .error e => .error e
      | .ok (a, r1) => .ok (.unE ln .pos a, r1))
    | ⟨ln, .subL⟩ :: r =>
      (match parseUnary fuel r with
      | .error e => .error e
      | .ok (a, r1) => .ok (.unE ln .neg a, r1))
    | ⟨ln, .notL⟩ :: r =>
      (match parseUnary fuel r with
      | .error e => .error e
      | .ok (a, r1) => .ok (.unE ln .bnot a, r1))
    | ⟨ln, .compL⟩ :: r =>
      (match parseUnary fuel r with
      | .error e => .error e
      | .ok (a, r1) => .ok (.unE ln .comp a, r1))
    | _ => parseCall fuel lxs
termination_by structural fuel

/-- Translation of `parse_binary` at one precedence band. -/
def parseBinary (fuel : Nat) (prec : Nat) (lxs : List Lexeme) : PRes :=
  match fuel with
  | 0 => .error (⟨0, .unknown, "model: fuel exhausted", none⟩, lxs)
  | fuel + 1 =>
    if 5 ≤ prec then parseUnary fuel lxs
    else
      match parseBinary fuel (prec + 1) lxs with
      | .error e => .error e
      | .ok (tok, r) => parseBinaryLoop fuel prec tok r
termination_by structural fuel

/-- Left-associative chaining loop of `parse_binary`. -/
def parseBinaryLoop (fuel : Nat) (prec : Nat) (tok : Expr) (lxs : List Lexeme) : PRes :=
  match fuel with
  | 0 => .error (⟨0, .unknown, "model: fuel exhausted", none⟩, lxs)
  | fuel + 1 =>
    match lxs with
    | l :: r =>
      (match lexBin l.t with
      | some (op, p) =>
        if p = prec then
          match parseBinary fuel (prec + 1) r with
          | .error e => .error e
          | .ok (rhs, r1) => parseBinaryLoop fuel prec (.binE l.line op tok rhs) r1
        else .ok (tok, lxs)
      | none => .ok (tok, lxs))
    | [] => .ok (tok, [])
termination_by structural fuel

/-- Translation of `parse_ternary`. -/
def parseTernary (fuel : Nat) (lxs : List Lexeme) : PRes :=
  match fuel with
  | 0 => .error (⟨0, .unknown, "model: fuel exhausted", none⟩, lxs)
  | fuel + 1 =>
    match parseBinary fuel 0 lxs with
    | .error e => .error e
    | .ok (cond, r) =>
      match r with
      | ⟨lnQ, .optL⟩ :: r1 =>
        (match parseBinary fuel 0 r1 with
        | .error e => .error e
        | .ok (b1, r2) =>
          match r2 with
          | ⟨lnC, .colonL⟩ :: r3 =>
            (match parseBinary fuel 0 r3 with
            | .error e => .error e
            | .ok (b2, r4) => .ok (.ternaryE lnC cond b1 b2, r4))
          | _ => .error (⟨lnQ, .syntax_, "expected colon for ternary", none⟩, r2))
      | _ => .ok (cond, r)
termination_by structural fuel

end

/-- Translation of `parse_expr`: lex the expression up to the terminator, then
parse the whole lexeme list.  A failure that consumed every lexeme is
rewritten to "unterminated expression in substitution"; leftovers (whether the
parse failed or not) are "extra tokens in expression"; an empty lexeme list
makes `lex_expr` return NULL without setting an error, which the `.error none`
case mirrors. -/
def parseExpr (rest : List Char) (term : Option (List Char)) (line : Nat) :
    Except (Option Err) (Expr × List Char × Nat) :=
  match lexExprLoop (rest.length + 1) rest term line 0 [] with
  | .error e => .error (some e)
  | .ok (lexemes, rest', line') =>
    if lexemes.isEmpty then .error none
    else
      match parseTernary ((lexemes.length + 1) * 16) lexemes with
      | .ok (e, []) => .ok (e, rest', line')
      | .ok (_, _ :: _) => .error (some ⟨line', .syntax_, "extra tokens in expression", none⟩)
      | .error (_, _ :: _) => .error (some ⟨line', .syntax_, "extra tokens in expression", none⟩)
      | .error (_, []) =>
        .error (some ⟨line', .syntax_, "unterminated expression in substitution", none⟩)

end LatticeC

namespace LatticeC

/-! Template tokenizer (`lex`) and directive tokens (`struct token`). -/

/-- Directive tags of `enum token_type`. -/
inductive TokTy where
  | span | subEsc | subRaw | inclu
  | tIf | tElif | tElse | tSwitch | tCase | tDefault
  | tForRangeExc | tForRangeInc | tForIter | tWith | tEnd
deriving DecidableEq, Repr

/-- Directive token.  The template-level `LEX_ADD` macro never assigns
`tok->line` (the calloc leaves it 0), so every token built by the tokenizer
carries line 0; the field is kept because the struct has it and the renderer
reports it in errors. -/
inductive Tok where
  | mk (line : Nat) (ty : TokTy) (ident : String) (e0 e1 : Option Expr) (child : List Tok)
deriving Repr

def Tok.line : Tok → Nat | .mk l _ _ _ _ _ => l
def Tok.ty : Tok → TokTy | .mk _ t _ _ _ _ => t
def Tok.ident : Tok → String | .mk _ _ i _ _ _ => i
def Tok.e0 : Tok → Option Expr | .mk _ _ _ e _ _ => e
def Tok.e1 : Tok → Option Expr | .mk _ _ _ _ e _ => e
def Tok.child : Tok → List Tok | .mk _ _ _ _ _ c => c

/-- Replacement of a token's child list (used by the block builder and the
include resolver). -/
def Tok.withChild : Tok → List Tok → Tok
  | .mk l t i e0 e1 _, c => .mk l t i e0 e1 c

/-- Comment scan of `$( ... )`: the do-while advances before testing, so the
first byte after `(` is skipped outright (an empty comment `$()` therefore
runs past its `)` and reports "unterminated comment"). -/
def commentLoop (fuel : Nat) (rest : List Char) (line : Nat) :
    Except (Option Err) (List Char × Nat) :=
  match fuel with
  | 0 => .error (some ⟨line, .unknown, "model: fuel exhausted", none⟩)
  | fuel + 1 =>
    match rest with
    | [] => .error (some ⟨line, .syntax_, "unterminated comment", none⟩)
    | c :: r =>
      let line' := if c = '\n' then line + 1 else line
      if c = ')' then .ok (r, line')
      else commentLoop fuel r line'

/-- Include-path scan of `$< ... >`: again a do-while, so the first byte after
`<` always lands in the path, and newlines from the second byte on bump the
line counter. -/
def includeScan (fuel : Nat) (rest : List Char) (line : Nat) (acc : List Char) :
    Except (Option Err) (List Char × List Char × Nat) :=
  match fuel with
  | 0 => .error (some ⟨line, .unknown, "model: fuel exhausted", none⟩)
  | fuel + 1 =>
    match rest with
    | [] => .error (some ⟨line, .syntax_, "unterminated include", none⟩)
    | c :: r =>
      let line' := if c = '\n' then line + 1 else line
      if c = '>' then .ok (acc, r, line')
      else includeScan fuel r line' (acc ++ [c])

/-- Whitespace skip with the C's test-first loop (`while isspace { src++;
count newline at the NEW position }`): a newline at the very first position of
the run is not counted. -/
def wsSkip (fuel : Nat) (rest : List Char) (line : Nat) : List Char × Nat :=
  match fuel with
  | 0 => (rest, line)
  | fuel + 1 =>
    match rest with
    | c :: r =>
      if cIsSpace c then
        match r with
        | d :: _ => wsSkip fuel r (if d = '\n' then line + 1 else line)
        | [] => ([], line)
      else (c :: r, line)
    | [] => ([], line)

/-- Whitespace skip with the C's advance-first do-while: the current byte is
consumed unchecked, then spaces are skipped with newline counting at each
landed position. -/
def wsSkipAdvLoop (fuel : Nat) (rest : List Char) (line : Nat) : List Char × Nat :=
  match fuel with
  | 0 => (rest, line)
  | fuel + 1 =>
    match rest with
    | c :: r =>
      let line' := if c = '\n' then line + 1 else line
      if cIsSpace c then wsSkipAdvLoop fuel r line' else (c :: r, line')
    | [] => ([], line)

/-- Keyword table scanned in reverse by the C (longest-prefix workaround). -/
def keywordScan : List (List Char × TokTy) :=
  [("end".data, .tEnd), ("with".data, .tWith), ("for".data, .tForIter),
   ("default".data, .tDefault), ("case".data, .tCase), ("switch".data, .tSwitch),
   ("else".data, .tElse), ("elif".data, .tElif), ("if".data, .tIf)]

/-- Main loop of `lex`.  `pending` holds the literal bytes accumulated since
`cspan`; the C flush conditions compare raw pointers, which the comments below
restate in terms of `pending`. -/
def lexLoop (fuel : Nat) (rest pending : List Char) (line : Nat) (acc : List Tok) :
    Except (Option Err) (List Tok) :=
  match fuel with
  | 0 => .error (some ⟨line, .unknown, "model: fuel exhausted", none⟩)
  | fuel + 1 =>
    match rest with
    | [] =>
      -- Final flush: `if (src > cspan + 1)` where `src - cspan` is the pending
      -- length, so a trailing literal span of exactly one byte is dropped.
      if 2 ≤ pending.length then .ok (acc ++ [⟨0, .span, ⟨pending⟩, none, none, []⟩])
      else .ok acc
    | c :: r =>
      if c ≠ '$' then
        lexLoop fuel r (pending ++ [c]) (if c = '\n' then line + 1 else line) acc
      else
        let escape := r.head? = some '$'
        let r1 := if escape then r.tail else r
        -- Mid-template flush: here `src - cspan - 1` counts `pending` plus the
        -- first '$' when escaping, so the span is emitted iff that is nonempty.
        let spanContent : List Char := if escape then pending ++ ['$'] else pending
        let acc1 := if spanContent.isEmpty then acc
                    else acc ++ [⟨0, .span, ⟨spanContent⟩, none, none, []⟩]
        if escape then lexLoop fuel r1 [] line acc1
        else
          match r1 with
          | [] => .error (some ⟨line, .syntax_, "expected keyword", none⟩)
          | c2 :: r2 =>
            if c2 = '(' then
              match r2 with
              | [] => .error (some ⟨line, .unknown, "model: read past end of template", none⟩)
              | _ :: r3 =>
                match commentLoop (r3.length + 1) r3 line with
                | .error e => .error e
                | .ok (r4, line') => lexLoop fuel r4 [] line' acc1
            else if c2 = '[' ∨ c2 = '{' then
              let termc : Char := if c2 = '[' then ']' else '}'
              match parseExpr r2 (some [termc]) line with
              | .error e => .error e
              | .ok (ex, r3, line') =>
                match r3 with
                | t :: r4 =>
                  if t = termc then
                    lexLoop fuel r4 [] line'
                      (acc1 ++ [⟨0, (if c2 = '[' then .subEsc else .subRaw), "", some ex, none, []⟩])
                  else .error (some ⟨line', .syntax_, "expected closing bracket for substitution", none⟩)
                | [] => .error (some ⟨line', .syntax_, "expected closing bracket for substitution", none⟩)
            else if c2 = '<' then
              match r2 with
              | [] => .error (some ⟨line, .unknown, "model: read past end of template", none⟩)
              | p0 :: r3 =>
                match includeScan (r3.length + 1) r3 line [] with
                | .error e => .error e
                | .ok (path, r4, line') =>
                  lexLoop fuel r4 [] line'
                    (acc1 ++ [⟨0, .inclu, ⟨p0 :: path⟩, none, none, []⟩])
            else
              match keywordScan.find? (fun kw => kw.1.isPrefixOf r1) with
              | none => .error (some ⟨line, .syntax_, "unknown keyword", none⟩)
              | some (kw, ty0) =>
                let r3 := r1.drop kw.length
                if ty0 = .tElse ∨ ty0 = .tDefault then
                  -- no expression; straight to the colon check
                  match r3 with
                  | t :: r4 =>
                    if t = ':' then
                      lexLoop fuel r4 [] line (acc1 ++ [⟨0, ty0, "", none, none, []⟩])
                    else .error (some ⟨line, .syntax_, "expected colon", none⟩)
                  | [] => .error (some ⟨line, .syntax_, "expected colon", none⟩)
                else
                  -- `if (*src == '\n') line++; if (!isspace(*(src++))) ...`
                  match r3 with
                  | [] => .error (some ⟨line, .syntax_, "expected whitespace", none⟩)
                  | w :: r4 =>
                    let line1 := if w = '\n' then line + 1 else line
                    if !cIsSpace w then .error (some ⟨line1, .syntax_, "expected whitespace", none⟩)
                    else if ty0 = .tEnd then
                      lexLoop fuel r4 [] line1 (acc1 ++ [⟨0, .tEnd, "", none, none, []⟩])
                    else if ty0 = .tForIter then
                      let sk := wsSkip (r4.length + 1) r4 line1
                      match sk.1 with
                      | [] => .error (some ⟨sk.2, .syntax_, "expected identifier for loop", none⟩)
                      | i0 :: ir =>
                        if !(cIsAlpha i0 || i0 = '_') then
                          .error (some ⟨sk.2, .syntax_, "expected identifier for loop", none⟩)
                        else
                          let idc : Char → Bool := fun ch => cIsAlnum ch || ch = '_'
                          let identStr : String := ⟨i0 :: ir.takeWhile idc⟩
                          let r5 := ir.dropWhile idc
                          match r5 with
                          | [] => .error (some ⟨sk.2, .unknown, "model: read past end of template", none⟩)
                          | _ :: r6 =>
                            let sk2 := wsSkipAdvLoop (r6.length + 1) r6 sk.2
                            let line2 := sk2.2
                            match sk2.1 with
                            | [] => .error (some ⟨line2, .syntax_, "expected preposition for loop", none⟩)
                            | _ =>
                              if "from".data.isPrefixOf sk2.1 then
                                let r7 := sk2.1.drop 4
                                let sk3 := wsSkip (r7.length + 1) r7 line2
                                match parseExpr sk3.1 (some ['.', '.']) sk3.2 with
                                | .error e => .error e
                                | .ok (lowE, r8, line3) =>
                                  if "..".data.isPrefixOf r8 then
                                    let r9 := r8.drop 2
                                    let inc := r9.head? = some '='
                                    let r10 := if inc then r9.tail else r9
                                    let ty1 : TokTy := if inc then .tForRangeInc else .tForRangeExc
                                    match parseExpr r10 (some [':']) line3 with
                                    | .error e => .error e
                                    | .ok (highE, r11, line4) =>
                                      match r11 with
                                      | t :: r12 =>
                                        if t = ':' then
                                          lexLoop fuel r12 [] line4
                                            (acc1 ++ [⟨0, ty1, identStr, some lowE, some highE, []⟩])
                                        else .error (some ⟨line4, .syntax_, "expected colon", none⟩)
                                      | [] => .error (some ⟨line4, .syntax_, "expected colon", none⟩)
                                  else .error (some ⟨line3, .syntax_, "expected range", none⟩)
                              else if "in".data.isPrefixOf sk2.1 then
                                let r7 := sk2.1.drop 2
                                let sk3 := wsSkip (r7.length + 1) r7 line2
                                match parseExpr sk3.1 (some [':']) sk3.2 with
                                | .error e => .error e
                                | .ok (iterE, r8, line3) =>
                                  match r8 with
                                  | t :: r9 =>
                                    if t = ':' then
                                      lexLoop fuel r9 [] line3
                                        (acc1 ++ [⟨0, .tForIter, identStr, some iterE, none, []⟩])
                                    else .error (some ⟨line3, .syntax_, "expected colon", none⟩)
                                  | [] => .error (some ⟨line3, .syntax_, "expected colon", none⟩)
                              else .error (some ⟨line2, .syntax_, "invalid loop preposition", none⟩)
                    else
                      -- if / elif / switch / case / with: one expression up to ':'
                      match parseExpr r4 (some [':']) line1 with
                      | .error e => .error e
                      | .ok (ex, r5, line2) =>
                        match r5 with
                        | t :: r6 =>
                          if t = ':' then
                            lexLoop fuel r6 [] line2 (acc1 ++ [⟨0, ty0, "", some ex, none, []⟩])
                          else .error (some ⟨line2, .syntax_, "expected colon", none⟩)
                        | [] => .error (some ⟨line2, .syntax_, "expected colon", none⟩)

/-- Translation of `lex`: tokenize a whole template source.  An empty token
list corresponds to the C returning NULL without setting an error. -/
def lexTemplate (src : String) : Except (Option Err) (List Tok) :=
  lexLoop (src.length + 2) src.data [] 1 []

end LatticeC

namespace LatticeC

/-! Block builder (`parse_level`): pairs openers with terminators.  The C
restructures a doubly-linked list in place; the model returns the finished
sibling list of a level together with the tokens that remain for the enclosing
level.  Paths where the C dereferences a null pointer (stray subclauses at top
level, openers at end of input, unterminated switches) are marked with
`model:` errors; no theorem relies on them. -/

mutual

/-- Build one level: `parentTy` is the opener owning this level (none at top),
`prevTy` the previously attached sibling (used by the `elif`/`else` test on
`(*tokp)->prev`). -/
def parseLevel (fuel : Nat) (parentTy : Option TokTy) (prevTy : Option TokTy)
    (toks : List Tok) (acc : List Tok) : Except Err (List Tok × List Tok) :=
  match fuel with
  | 0 => .error ⟨0, .unknown, "model: fuel exhausted", none⟩
  | fuel + 1 =>
    match toks with
    | [] =>
      if parentTy.isSome then .error ⟨0, .syntax_, "unexpected end of file", none⟩
      else .ok (acc, [])
    | t :: rest =>
      match t.ty with
      | .span | .subEsc | .subRaw | .inclu =>
        parseLevel fuel parentTy (some t.ty) rest (acc ++ [t])
      | .tSwitch =>
        (match rest with
        | [] => .error ⟨0, .unknown, "model: switch at end of input", none⟩
        | _ =>
          match parseSwitchLevel fuel rest [] with
          | .error e => .error e
          | .ok (children, rest') =>
            parseLevel fuel parentTy (some .tSwitch) rest' (acc ++ [t.withChild children]))
      | .tCase | .tDefault =>
        (match parentTy with
        | none => .error ⟨0, .unknown, "model: stray case at top level", none⟩
        | some p =>
          if p ≠ .tCase ∧ p ≠ .tDefault then
            .error ⟨t.line, .syntax_, "case outside of switch", none⟩
          else .ok (acc, t :: rest))
      | .tEnd =>
        (match parentTy with
        | none => .error ⟨t.line, .syntax_, "unexpected block terminator", none⟩
        | some p =>
          if p = .tCase ∨ p = .tDefault then .ok (acc, t :: rest)
          else .ok (acc, rest))
      | .tElif | .tElse =>
        (match prevTy with
        | none => .error ⟨0, .unknown, "model: subclause first in level", none⟩
        | some pv =>
          if pv = .tIf ∨ pv = .tElif then
            match rest with
            | [] => .error ⟨0, .unknown, "model: opener at end of input", none⟩
            | _ =>
              match parseLevel fuel (some t.ty) none rest [] with
              | .error e => .error e
              | .ok (children, rest') =>
                parseLevel fuel parentTy (some t.ty) rest' (acc ++ [t.withChild children])
          else
            match parentTy with
            | none => .error ⟨0, .unknown, "model: stray subclause at top level", none⟩
            | some _ => .ok (acc, t :: rest))
      | _ =>
        -- tIf, tForRangeExc, tForRangeInc, tForIter, tWith: open a block
        (match rest with
        | [] => .error ⟨0, .unknown, "model: opener at end of input", none⟩
        | _ =>
          match parseLevel fuel (some t.ty) none rest [] with
          | .error e => .error e
          | .ok (children, rest') =>
            parseLevel fuel parentTy (some t.ty) rest' (acc ++ [t.withChild children]))
termination_by structural fuel

/-- The dedicated loop `parse_level` runs for a switch: `case`/`default` open
their own implicitly terminated levels, `end` closes the switch, and other
tokens attach as inert children (the C's empty-switch use-after-free of the
freed `end` token is modelled as an empty child list). -/
def parseSwitchLevel (fuel : Nat) (toks : List Tok) (acc : List Tok) :
    Except Err (List Tok × List Tok) :=
  match fuel with
  | 0 => .error ⟨0, .unknown, "model: fuel exhausted", none⟩
  | fuel + 1 =>
    match toks with
    | [] => .error ⟨0, .unknown, "model: unterminated switch", none⟩
    | t :: rest =>
      match t.ty with
      | .tEnd => .ok (acc, rest)
      | .tCase | .tDefault =>
        (match rest with
        | [] => .error ⟨0, .unknown, "model: case at end of input", none⟩
        | _ =>
          match parseLevel fuel (some t.ty) none rest [] with
          | .error e => .error e
          | .ok (body, rest') => parseSwitchLevel fuel rest' (acc ++ [t.withChild body]))
      | _ => parseSwitchLevel fuel rest (acc ++ [t])
termination_by structural fuel

end

/-! Include resolver (`parse_resolve`) and whole-template parse (`parse`). -/

/-- Options record `lattice_opts` (the fields the core reads). -/
structure Opts where
  ignoreEmitZero : Bool := false
  escape : Option (String → String) := none
  search : Option (List String) := none
  resolve : Option (String → Option String) := none

/-- Filesystem oracle: full path to contents.  The search loop's
`opendir`/`openat` probe of `dir/ident` and the later `open(resolved)` both
read this map, so a directory miss and a file miss coincide. -/
def FS : Type := List (String × String)

/-- Read of a file by path. -/
def fsRead (fs : FS) (path : String) : Option String :=
  (fs.find? (fun e => e.1 = path)).map (·.2)

mutual

/-- Translation of `parse_resolve`: locate each include, guard against
recursion via the stack of resolved paths, parse the contents as a nested
template and attach it as the include's children. -/
def parseResolve (fuel : Nat) (fs : FS) (opts : Opts) (stack : List String)
    (toks : List Tok) : Except (Option Err) (List Tok) :=
  match fuel with
  | 0 => .error (some ⟨0, .unknown, "model: fuel exhausted", none⟩)
  | fuel + 1 =>
    match toks with
    | [] => .ok []
    | t :: rest =>
      if t.ty = .inclu then
        -- `if (!opts.search || !opts.resolve)`: resolve to a path (callback or
        -- directory search) and check the recursion stack; otherwise the
        -- callback is asked directly for the contents.
        let pathMode := opts.search.isNone || opts.resolve.isNone
        let resolved? : Except (Option Err) (Option String) :=
          if pathMode = true then
            match opts.resolve with
            | some rf =>
              (match rf t.ident with
              | some p => .ok (some p)
              | none => .error none)   -- C returns NULL without setting an error
            | none =>
              let dirs := opts.search.getD ["."]
              match dirs.find? (fun d => (fsRead fs (d ++ "/" ++ t.ident)).isSome) with
              | some d => .ok (some (d ++ "/" ++ t.ident))
              | none => .error (some ⟨t.line, .includ, "failed to resolve include", none⟩)
          else .ok none
        match resolved? with
        | .error e => .error e
        | .ok resolved =>
          let hit : Bool := match resolved with
            | some p => pathMode && stack.contains p
            | none => false
          if hit then
            match resolved with
            | some p =>
              .error (some ⟨t.line, .includ,
                "recursive include of \x27" ++ p ++ "\x27", none⟩)
            | none => .error none
          else
            let src? : Except (Option Err) String :=
              match resolved with
              | some p =>
                (match fsRead fs p with
                | some s => .ok s
                | none => .error (some ⟨t.line, .includ, "failed to stat include", none⟩))
              | none =>
                match opts.resolve with
                | some rf =>
                  (match rf t.ident with
                  | some s => .ok s
                  | none => .error (some ⟨t.line, .includ, "failed to resolve include", none⟩))
                | none => .error (some ⟨t.line, .includ, "failed to resolve include", none⟩)
            match src? with
            | .error e => .error e
            | .ok src =>
              let stack' := match resolved with
                | some p => p :: stack
                | none => stack
              match parseTemplate fuel fs opts stack' src with
              | .error e => .error e
              | .ok child =>
                match parseResolve fuel fs opts stack rest with
                | .error e => .error e
                | .ok rest' => .ok (t.withChild child :: rest')
      else
        match parseResolve fuel fs opts stack t.child with
        | .error e => .error e
        | .ok child' =>
          match parseResolve fuel fs opts stack rest with
          | .error e => .error e
          | .ok rest' => .ok (t.withChild child' :: rest')
termination_by structural fuel

/-- Translation of `parse`: tokenize, block-build, resolve includes.  An empty
token list is the C's NULL return from `lex` and fails without an error
record. -/
def parseTemplate (fuel : Nat) (fs : FS) (opts : Opts) (stack : List String)
    (src : String) : Except (Option Err) (List Tok) :=
  match fuel with
  | 0 => .error (some ⟨0, .unknown, "model: fuel exhausted", none⟩)
  | fuel + 1 =>
    match lexTemplate src with
    | .error e => .error e
    | .ok [] => .error none
    | .ok toks =>
      match parseLevel (toks.length * 2 + 2) none none toks [] with
      | .error e => .error (some e)
      | .ok (tree, _) => parseResolve fuel fs opts stack tree
termination_by structural fuel

end

end LatticeC

namespace LatticeC

/-! Renderer (`eval`) and the public entrypoints. -/

/-- Output-side state: the caller's sink context threaded through the emit
callback, plus the observable sequence of emit invocations. -/
structure RState (σ : Type) where
  sink : σ
  trace : List String
deriving DecidableEq, Repr

/-- Two-digit decimal rendering of `sprintf("&#%02d;", c)`'s number part (all
five escaped byte values are two digits anyway). -/
def twoDigitDec (n : Nat) : List Char :=
  if n < 10 then ['0', Char.ofNat ('0'.toNat + n)] else Nat.toDigits 10 n

/-- Per-byte step of the default HTML escape built into the renderer: the five
bytes `&' " < >` become `&#NN;`, all other bytes pass through. -/
def escCharModel (c : Char) : List Char :=
  if c = '&' ∨ c = '\x27' ∨ c = '"' ∨ c = '<' ∨ c = '>' then
    '&' :: '#' :: twoDigitDec c.toNat ++ [';']
  else [c]

/-- Default escape of `TOKEN_SUB_ESC` (the C sizes the buffer in a first pass
and rebuilds byte by byte in a second; functionally it is this map). -/
def escapeDefault (s : String) : String := ⟨(s.data.map escCharModel).flatten⟩

/-- Translation of the `EVAL_EMIT` macro: empty strings are not emitted; a
zero return aborts with an IO error unless `ignore_emit_zero` is set, in which
case zero bytes are added and rendering continues. -/
def evalEmit {σ : Type} (opts : Opts) (emitFn : String → σ → Nat × σ) (line : Nat)
    (s : String) (res : Nat) (st : RState σ) : Nat × Option Err × RState σ :=
  if s = "" then (res, none, st)
  else
    let p := emitFn s st.sink
    let st' : RState σ := ⟨p.2, st.trace ++ [s]⟩
    if !opts.ignoreEmitZero && p.1 = 0 then
      (0, some ⟨line, .io, "failed to write output", none⟩, st')
    else (res + p.1, none, st')

mutual

/-- Sibling walk of `eval`: `wasIf`/`endIf` mirror the C's chain flags (an
`elif`/`else` whose arm already fired is skipped with the flags untouched,
exactly as the C `continue` bypasses the `was_if` update). -/
def evalToks {σ : Type} (fuel : Nat) (env : Env) (emitFn : String → σ → Nat × σ)
    (opts : Opts) (toks : List Tok) (ctx : LValue) (res : Nat) (wasIf endIf : Bool)
    (st : RState σ) : Nat × Option Err × RState σ :=
  match fuel with
  | 0 => (0, some ⟨0, .unknown, "model: fuel exhausted", none⟩, st)
  | fuel + 1 =>
    match toks with
    | [] => (res, none, st)
    | t :: rest =>
      if (t.ty = .tElif ∨ t.ty = .tElse) ∧ wasIf = false then
        (0, some ⟨t.line, .syntax_, "unexpected subclause", none⟩, st)
      else if (t.ty = .tElif ∨ t.ty = .tElse) ∧ endIf = true then
        evalToks fuel env emitFn opts rest ctx res wasIf endIf st
      else
        match evalStep fuel env emitFn opts t ctx res endIf st with
        | (_, some e, _, st') => (0, some e, st')
        | (res', none, endIf', st') =>
          evalToks fuel env emitFn opts rest ctx res'
            (t.ty = .tIf ∨ t.ty = .tElif) endIf' st'
termination_by structural fuel

/-- One directive of the `eval` loop body; returns the running byte count, the
error slot, the updated `end_if` flag and the output state.  Every error path
reports a zero byte count, as every C error path is `return 0`. -/
def evalStep {σ : Type} (fuel : Nat) (env : Env) (emitFn : String → σ → Nat × σ)
    (opts : Opts) (t : Tok) (ctx : LValue) (res : Nat) (endIf : Bool)
    (st : RState σ) : Nat × Option Err × Bool × RState σ :=
  match fuel with
  | 0 => (0, some ⟨0, .unknown, "model: fuel exhausted", none⟩, endIf, st)
  | fuel + 1 =>
    match t.ty with
    | .span =>
      let r := evalEmit opts emitFn t.line t.ident res st
      (r.1, r.2.1, endIf, r.2.2)
    | .subEsc | .subRaw =>
      (match t.e0 with
      | none => (0, some ⟨0, .unknown, "model: substitution without expression", none⟩, endIf, st)
      | some ex =>
        match evalExpr fuel env ex ctx with
        | .error e => (0, some e, endIf, st)
        | .ok v =>
          -- non-strings are serialised by the backend printer (assumed to
          -- succeed; the C's JSON-error path fires only when it returns NULL)
          let s0 := match v with
            | .str s => s
            | _ => env.print v
          let s1 := if t.ty = .subEsc then
              match opts.escape with
              | some f => f s0
              | none => escapeDefault s0
            else s0
          let r := evalEmit opts emitFn t.line s1 res st
          (r.1, r.2.1, endIf, r.2.2))
    | .inclu =>
      (match evalToks fuel env emitFn opts t.child ctx 0 false false st with
      | (_, some e, st') => (0, some { e with file := some t.ident }, endIf, st')
      | (sub, none, st') => (res + sub, none, endIf, st'))
    | .tIf | .tElif =>
      (match t.e0 with
      | none => (0, some ⟨0, .unknown, "model: conditional without expression", none⟩, endIf, st)
      | some ex =>
        match evalExpr fuel env ex ctx with
        | .error e => (0, some e, endIf, st)
        | .ok v =>
          let fire := valueTruthy v
          if fire then
            match evalToks fuel env emitFn opts t.child ctx 0 false false st with
            | (_, some e, st') => (0, some e, fire, st')
            | (sub, none, st') => (res + sub, none, fire, st')
          else (res, none, fire, st))
    | .tElse =>
      (match evalToks fuel env emitFn opts t.child ctx 0 false false st with
      | (_, some e, st') => (0, some e, endIf, st')
      | (sub, none, st') => (res + sub, none, endIf, st'))
    | .tSwitch =>
      (match t.e0 with
      | none => (0, some ⟨0, .unknown, "model: switch without expression", none⟩, endIf, st)
      | some ex =>
        match evalExpr fuel env ex ctx with
        | .error e => (0, some e, endIf, st)
        | .ok v =>
          let r := evalSwitchCases fuel env emitFn opts t.child v ctx res st
          (r.1, r.2.1, endIf, r.2.2))
    | .tForRangeExc | .tForRangeInc | .tForIter =>
      let anon := t.ident = "_"
      if ctx.ltype ≠ .object ∧ anon = false then
        (0, some ⟨t.line, .type_, "cannot bind in non-object scope", none⟩, endIf, st)
      else
        (match t.e0 with
        | none => (0, some ⟨0, .unknown, "model: loop without expression", none⟩, endIf, st)
        | some ex =>
          match evalExpr fuel env ex ctx with
          | .error e => (0, some e, endIf, st)
          | .ok fromV =>
            let bindsE : Except Err (List LValue) :=
              if t.ty = .tForIter then
                match fromV with
                | .str s => .ok (s.data.map (fun c => .str ⟨[c]⟩))
                | .array items => .ok items
                | .object entries => .ok (entries.map (fun e => .str e.1))
                | _ => .error ⟨t.line, .type_, "loop values must be iterable", none⟩
              else
                match t.e1 with
                | none => .error ⟨0, .unknown, "model: range without high expression", none⟩
                | some ex2 =>
                  match evalExpr fuel env ex2 ctx with
                  | .error e => .error e
                  | .ok toV =>
                    match fromV, toV with
                    | .number lo, .number hi =>
                      -- `while (from_num < to_num) { ...; from_num++ }` with
                      -- to_num = hi (+1 when inclusive)
                      let hi' := hi + (if t.ty = .tForRangeInc then 1 else 0)
                      .ok ((List.range (hi' - lo).ceil.toNat).map
                        (fun i => .number (lo + i)))
                    | _, _ => .error ⟨t.line, .type_, "loop indices must be numbers", none⟩
            match bindsE with
            | .error e => (0, some e, endIf, st)
            | .ok binds =>
              -- fresh scope per iteration: the current scope's entries minus a
              -- previous binding of the loop variable, plus the new binding
              let keys := ctx.keyList
              let removeIdx := (keys.findIdx? (fun k => k = t.ident)).getD keys.length
              let baseEntries := ((keys.enum.filter (fun p => p.1 ≠ removeIdx)).map
                (fun p => (p.2, (ctx.getObj p.2).getD .null)))
              let r := evalForLoop fuel env emitFn opts t.child anon t.ident
                baseEntries binds ctx res st
              (r.1, r.2.1, endIf, r.2.2))
    | .tWith =>
      (match t.e0 with
      | none => (0, some ⟨0, .unknown, "model: with without expression", none⟩, endIf, st)
      | some ex =>
        match evalExpr fuel env ex ctx with
        | .error e => (0, some e, endIf, st)
        | .ok v =>
          match evalToks fuel env emitFn opts t.child v 0 false false st with
          | (_, some e, st') => (0, some e, endIf, st')
          | (sub, none, st') => (res + sub, none, endIf, st'))
    | .tCase | .tDefault | .tEnd => (res, none, endIf, st)
termination_by structural fuel

/-- Child walk of `TOKEN_SWITCH`: the discriminant is compared against each
`case` with the `eq` rule; the first match renders and stops; `default` must
be last and renders when reached.  A failing `case` expression is handed to
`value_eq` as NULL by the C (backend-dependent outcome); the model propagates
the error. -/
def evalSwitchCases {σ : Type} (fuel : Nat) (env : Env) (emitFn : String → σ → Nat × σ)
    (opts : Opts) (children : List Tok) (v : LValue) (ctx : LValue) (res : Nat)
    (st : RState σ) : Nat × Option Err × RState σ :=
  match fuel with
  | 0 => (0, some ⟨0, .unknown, "model: fuel exhausted", none⟩, st)
  | fuel + 1 =>
    match children with
    | [] => (res, none, st)
    | c :: cs =>
      if c.ty = .tCase then
        match c.e0 with
        | none => (0, some ⟨0, .unknown, "model: case without expression", none⟩, st)
        | some ce =>
          match evalExpr fuel env ce ctx with
          | .error e => (0, some e, st)
          | .ok bv =>
            if valueEq v bv then
              match evalToks fuel env emitFn opts c.child ctx 0 false false st with
              | (_, some e, st') => (0, some e, st')
              | (sub, none, st') => (res + sub, none, st')
            else evalSwitchCases fuel env emitFn opts cs v ctx res st
      else if c.ty = .tDefault then
        if cs.isEmpty = false then
          (0, some ⟨c.line, .syntax_, "cannot have case after default", none⟩, st)
        else
          match evalToks fuel env emitFn opts c.child ctx 0 false false st with
          | (_, some e, st') => (0, some e, st')
          | (sub, none, st') => (res + sub, none, st')
      else evalSwitchCases fuel env emitFn opts cs v ctx res st
termination_by structural fuel

/-- Iteration loop shared by the three `for` forms: a fresh scope per
iteration (unless the variable is the anonymous `_`), body rendered, byte
counts accumulated, first error aborting the render. -/
def evalForLoop {σ : Type} (fuel : Nat) (env : Env) (emitFn : String → σ → Nat × σ)
    (opts : Opts) (body : List Tok) (anon : Bool) (identStr : String)
    (baseEntries : List (String × LValue)) (binds : List LValue) (ctx : LValue)
    (res : Nat) (st : RState σ) : Nat × Option Err × RState σ :=
  match fuel with
  | 0 => (0, some ⟨0, .unknown, "model: fuel exhausted", none⟩, st)
  | fuel + 1 =>
    match binds with
    | [] => (res, none, st)
    | b :: bs =>
      let scope := if anon then ctx else .object (baseEntries ++ [(identStr, b)])
      match evalToks fuel env emitFn opts body scope 0 false false st with
      | (_, some e, st') => (0, some e, st')
      | (sub, none, st') =>
        evalForLoop fuel env emitFn opts body anon identStr baseEntries bs ctx (res + sub) st'
termination_by structural fuel

end

/-- Translation of the `lattice` entrypoint: parse, then render; a parse
failure returns 0 without touching the output state (the emit callback is
never reached). -/
def lattice {σ : Type} (fuel : Nat) (env : Env) (fs : FS)
    (emitFn : String → σ → Nat × σ) (opts : Opts) (template : String)
    (root : LValue) (st : RState σ) : Nat × Option Err × RState σ :=
  match parseTemplate fuel fs opts [] template with
  | .error e => (0, e, st)
  | .ok toks => evalToks fuel env emitFn opts toks root 0 false false st

/-- Translation of `buffer_emit`: append to the growable buffer and report the
appended length (the model assumes allocation succeeds, as the rest of the
engine does). -/
def bufferEmit (data : String) (buf : String) : Nat × String :=
  (data.length, buf ++ data)

/-- Translation of `lattice_buffer`: the out-buffer is set to a fresh empty
string before parsing begins, then the render appends to it through
`buffer_emit`. -/
def latticeBuffer (fuel : Nat) (env : Env) (fs : FS) (opts : Opts)
    (template : String) (root : LValue) : Nat × Option Err × RState String :=
  lattice fuel env fs bufferEmit opts template root ⟨"", []⟩

end LatticeC

namespace LatticeC

/-! Shared fixtures for the concrete theorems. -/

/-- Fixed capability oracles for concrete renders: a constant wall clock and a
constant JSON printer (no theorem below depends on their output). -/
def envT : Env := ⟨fun _ => "", fun _ => "null"⟩

/-- Substring test used to state "the message names file X". -/
def containsSub (hay needle : String) : Bool :=
  (List.range (hay.length + 1)).any (fun i => needle.data.isPrefixOf (hay.data.drop i))

/-- Two-file filesystem of the recursive-include scenario: `a.tmpl` includes
`b.tmpl` and vice versa. -/
def fsAB : FS := [("./a.tmpl", "$<b.tmpl>"), ("./b.tmpl", "$<a.tmpl>")]

end LatticeC

open LatticeC

/-- C1: the claim states that every literal byte passes through, so a template
of only literal bytes renders as exactly those bytes.  The code drops a
trailing literal span of exactly one byte: the end-of-input flush in `lex`
keeps the guard `src > cspan + 1` of the mid-template case, where the `+ 1`
accounted for the consumed `$` sigil.  Rendering `"a"` therefore emits nothing
and returns 0 (the tokenizer yields no tokens at all), and the spec's own seed
template `Hello, ${name}!` loses its trailing `!`.  Two-byte literal spans and
the `$$` escape itself still work, as the last two conjuncts show. -/
theorem C1_trailing_literal_dropped :
    latticeBuffer 100 envT [] {} "a" (.object []) = (0, none, ⟨"", []⟩) ∧
    lexTemplate "a" = .ok [] ∧
    latticeBuffer 100 envT [] {} "Hello, ${name}!" (.object [("name", .str "world")]) =
      (12, none, ⟨"Hello, world", ["Hello, ", "world"]⟩) ∧
    latticeBuffer 100 envT [] {} "ab" (.object []) = (2, none, ⟨"ab", ["ab"]⟩) ∧
    latticeBuffer 100 envT [] {} "x$$" (.object []) = (2, none, ⟨"x$", ["x$"]⟩) := by
  refine ⟨rfl, rfl, rfl, rfl, rfl⟩

/-- C2: the claim states `s.contains(x)` is substring containment and
`s.find(x)` the first match index.  In the code the search loop's hit
condition is the raw `strncmp` result, which is nonzero exactly when the
needle does NOT match, so on strings both methods are inverted (and the
argument type guard reads `iface.type` of a pointer comparison, a wild read).
`"aa".contains("a")` yields false and `"aa".find("a")` yields −1 where the
claim requires true and 0; `"ab".find("b")` yields 0 (the first MISmatch)
instead of 1.  The array path compares with `value_eq` and is correct. -/
theorem C2_contains_find_inverted :
    evalExpr 20 envT (.methodE 1 (.strE 1 "aa") "contains" (.cons (.strE 1 "a") .nil))
      (.object []) = .ok (.boolean false) ∧
    evalExpr 20 envT (.methodE 1 (.strE 1 "aa") "find" (.cons (.strE 1 "a") .nil))
      (.object []) = .ok (.number (-1)) ∧
    evalExpr 20 envT (.methodE 1 (.strE 1 "ab") "find" (.cons (.strE 1 "b") .nil))
      (.object []) = .ok (.number 0) ∧
    evalExpr 20 envT (.methodE 1
        (.arrE 1 (.cons (.numberE 1 5) (.cons (.numberE 1 7) .nil)))
        "contains" (.cons (.numberE 1 7) .nil))
      (.object []) = .ok (.boolean true) := by
  refine ⟨rfl, rfl, rfl, rfl⟩

/-- C3: the claim states a null key causes its value to be evaluated and
discarded, with later keys still pairing with their own values.  The code's
null-key branch `continue`s without advancing the value pointer, so the
skipped key's value is neither evaluated nor discarded: it is handed to the
next key.  `{null: 1, "a": 2}` evaluates to `{"a": 1}` (the claim requires
`{"a": 2}`), and `{null: missing}` succeeds even though evaluating the value
would raise a name error (the claim requires that evaluation to happen). -/
theorem C3_null_key_misaligns_values :
    evalExpr 20 envT (.objE 1 (.cons (.nullE 1) (.cons (.strE 1 "a") .nil))
        (.cons (.numberE 1 1) (.cons (.numberE 1 2) .nil)))
      (.object []) = .ok (.object [("a", .number 1)]) ∧
    evalExpr 20 envT (.objE 1 (.cons (.nullE 1) .nil)
        (.cons (.identE 1 "missing") .nil))
      (.object []) = .ok (.object []) ∧
    evalExpr 20 envT (.identE 1 "missing") (.object []) =
      .error ⟨1, .name_, "\x27missing\x27 is undefined", none⟩ := by
  refine ⟨rfl, rfl, rfl⟩

/-- C5 counterexample: rendering `a.tmpl` (its contents are `$<b.tmpl>`)
over the filesystem include resolver fails with an include error, but the
message is `recursive include of './b.tmpl'` — it names `b.tmpl`, not
`a.tmpl` as the claim states.  The top-level template is never pushed on the
include stack, so the first path seen twice is `./b.tmpl`. -/
theorem C5_message_names_btmpl_not_atmpl :
    latticeBuffer 200 envT fsAB {} "$<b.tmpl>" (.object []) =
      (0, some ⟨0, .includ, "recursive include of \x27./b.tmpl\x27", none⟩, ⟨"", []⟩) ∧
    containsSub "recursive include of \x27./b.tmpl\x27" "a.tmpl" = false := by
  exact ⟨rfl, by decide⟩

/-- C5 amended: rendering `a.tmpl` fails with an include error (code
`LATTICE_INCLUDE_ERROR`), detected by finding an already-resolved path on the
include stack; the message names `b.tmpl` — the resolved path `./b.tmpl`,
which is the first path encountered twice (the renderer's own template is not
on the stack).  The error carries line 0 and no file tag. -/
theorem C5_recursive_include_names_btmpl :
    latticeBuffer 200 envT fsAB {} "$<b.tmpl>" (.object []) =
      (0, some ⟨0, .includ, "recursive include of \x27./b.tmpl\x27", none⟩, ⟨"", []⟩) ∧
    containsSub "recursive include of \x27./b.tmpl\x27" "b.tmpl" = true ∧
    (latticeBuffer 200 envT fsAB {} "$<b.tmpl>" (.object [])).2.1.map (·.code) =
      some .includ := by
  exact ⟨rfl, by decide, rfl⟩

/-- C7 counterexample: with the same capability table, options, emit sink and
root, two invocations of the render differing only in the wall clock read by
`datetime` (the C calls `time(NULL)` at evaluation time) produce different
output, so `render(T, R)` is not deterministic for templates that call the
datetime method. -/
theorem C7_datetime_nondeterminism :
    latticeBuffer 100 ⟨fun _ => "11", envT.print⟩ [] {} "$[\"%S\".datetime()]" (.object []) ≠
    latticeBuffer 100 ⟨fun _ => "22", envT.print⟩ [] {} "$[\"%S\".datetime()]" (.object []) := by
  decide

/-- C9: parsing — tokenizing, block building and resolution of every included
template — completes before any output: whenever `parse` fails, the `lattice`
entrypoint returns a byte count of 0, passes the parse error through, and the
output state is returned untouched, so the emit callback was never invoked. -/
theorem C9_parse_before_emit {σ : Type} (fuel : Nat) (env : Env) (fs : FS)
    (emitFn : String → σ → Nat × σ) (opts : Opts) (tmpl : String) (root : LValue)
    (st : RState σ) (e : Option Err)
    (h : parseTemplate fuel fs opts [] tmpl = .error e) :
    lattice fuel env fs emitFn opts tmpl root st = (0, e, st) := by
  unfold lattice
  rw [h]

/-- C9 witness: the template `$(x` has an unterminated comment; its parse
fails with a syntax error and the render returns 0 with the state untouched. -/
theorem C9_parse_before_emit_witness :
    parseTemplate 50 [] {} [] "$(x" =
      .error (some ⟨1, .syntax_, "unterminated comment", none⟩) ∧
    lattice 50 envT [] bufferEmit {} "$(x" (.object []) ⟨"start", []⟩ =
      (0, some ⟨1, .syntax_, "unterminated comment", none⟩, ⟨"start", []⟩) := by
  refine ⟨rfl, C9_parse_before_emit 50 envT [] bufferEmit {} "$(x" (.object [])
    ⟨"start", []⟩ _ rfl⟩

namespace LatticeC

/-- Specification-side description of the default escape (the claim's words):
each of the five bytes `&`, `'`, `"`, `<`, `>` becomes the two-digit decimal
entity `&#NN;`, every other byte is unaltered. -/
def escSpecChar (c : Char) : List Char :=
  if c ∈ ['&', '\x27', '"', '<', '>'] then
    '&' :: '#' :: Nat.toDigits 10 c.toNat ++ [';']
  else [c]

/-- Pointwise agreement of the renderer's escape step with the claim's
description (the five byte values 38, 39, 34, 60, 62 are all two digits, so
the `%02d` padding never fires). -/
theorem escCharModel_eq_spec (c : Char) : escCharModel c = escSpecChar c := by
  unfold escCharModel escSpecChar
  by_cases h : c = '&' ∨ c = '\x27' ∨ c = '"' ∨ c = '<' ∨ c = '>'
  · rcases h with h | h | h | h | h <;> subst h <;> decide
  · rw [if_neg h, if_neg]
    simp only [List.mem_cons, List.mem_singleton, List.not_mem_nil, or_false]
    exact h

end LatticeC

/-- C6: the default escape of `$[e]` replaces each of the five bytes
`& ' " < >` by its decimal entity `&#NN;` (two digits) and leaves every other
byte unaltered; rendering `$[html]` against `{"html":"<b>&\"</b>"}` outputs
`&#60;b&#62;&#38;&#34;&#60;/b&#62;`. -/
theorem C6_default_escape :
    (∀ s : String, escapeDefault s = ⟨(s.data.map escSpecChar).flatten⟩) ∧
    latticeBuffer 100 envT [] {} "$[html]" (.object [("html", .str "<b>&\"</b>")]) =
      (33, none,
        ⟨"&#60;b&#62;&#38;&#34;&#60;/b&#62;", ["&#60;b&#62;&#38;&#34;&#60;/b&#62;"]⟩) := by
  constructor
  · intro s
    unfold escapeDefault
    congr 1
    induction s.data with
    | nil => rfl
    | cons c cs ih =>
      simp only [List.map_cons, List.flatten_cons, ih, escCharModel_eq_spec]
  · rfl

namespace LatticeC

/-- Index clamp of the two-index range path of `EXPR_INDEX`: adjust a negative
index by the length, then send anything outside `[0, len)` to `len` (the C's
`(size_t)` cast of a still-negative double lands above any length on the
reference platform, so the clamp catches it too). -/
def clampIdx (len : Nat) (x : Int) : Nat :=
  if (if x < 0 then x + len else x) < 0 ∨ (len : Int) ≤ (if x < 0 then x + len else x)
  then len
  else (if x < 0 then x + len else x).toNat

/-- Clamped endpoints stay within `[0, len]`. -/
theorem clampIdx_le (len : Nat) (x : Int) : clampIdx len x ≤ len := by
  unfold clampIdx
  by_cases h : x < 0 <;> simp only [h, if_true, if_false] <;> split <;> omega

/-- Single-index behaviour of `evalIndex` on a string. -/
theorem evalIndex_str_single (el il jl : Nat) (s : String) (i : Int) :
    evalIndex el il jl (.str s) (.number (i : Rat)) none =
      (if (if i < 0 then i + s.length else i) < 0 ∨
          (s.length : Int) ≤ (if i < 0 then i + s.length else i) then
        .error ⟨il, .value_, "index out of range", none⟩
      else .ok (.str ⟨[s.data.getD (if i < 0 then i + s.length else i).toNat (Char.ofNat 0)]⟩)) := by
  unfold evalIndex
  simp only [LValue.ltype, LValue.len, Rat.den_intCast, Rat.num_intCast, Int.cast_lt_zero]
  norm_num

/-- Range behaviour of `evalIndex` on a string: both endpoints clamped, then
an empty slice when the high end falls below the low end. -/
theorem evalIndex_str_range (el il jl : Nat) (s : String) (i j : Int) :
    evalIndex el il jl (.str s) (.number (i : Rat)) (some (.number (j : Rat))) =
      .ok (.str ⟨(s.data.drop (clampIdx s.length i)).take
        (max (clampIdx s.length j) (clampIdx s.length i) - clampIdx s.length i)⟩) := by
  unfold evalIndex clampIdx
  simp only [LValue.ltype, LValue.len, Rat.den_intCast, Rat.num_intCast, Int.cast_lt_zero]
  norm_num
  have hmax : ∀ a b : Nat, (if b < a then a else b) = b ⊔ a := by
    intro a b
    by_cases h : b < a <;> simp [h] <;> omega
  rw [hmax]

/-- Single-index behaviour of `evalIndex` on an array. -/
theorem evalIndex_arr_single (el il jl : Nat) (items : List LValue) (i : Int) :
    evalIndex el il jl (.array items) (.number (i : Rat)) none =
      (if (if i < 0 then i + items.length else i) < 0 ∨
          (items.length : Int) ≤ (if i < 0 then i + items.length else i) then
        .error ⟨il, .value_, "index out of range", none⟩
      else .ok (items.getD (if i < 0 then i + items.length else i).toNat .null)) := by
  unfold evalIndex
  simp only [LValue.ltype, LValue.len, Rat.den_intCast, Rat.num_intCast, Int.cast_lt_zero]
  norm_num

/-- Range behaviour of `evalIndex` on an array. -/
theorem evalIndex_arr_range (el il jl : Nat) (items : List LValue) (i j : Int) :
    evalIndex el il jl (.array items) (.number (i : Rat)) (some (.number (j : Rat))) =
      .ok (.array ((items.drop (clampIdx items.length i)).take
        (max (clampIdx items.length j) (clampIdx items.length i) - clampIdx items.length i))) := by
  unfold evalIndex clampIdx
  simp only [LValue.ltype, LValue.len, Rat.den_intCast, Rat.num_intCast, Int.cast_lt_zero]
  norm_num
  have hmax : ∀ a b : Nat, (if b < a then a else b) = b ⊔ a := by
    intro a b
    by_cases h : b < a <;> simp [h] <;> omega
  rw [hmax]

end LatticeC

open LatticeC

/-- C4: integer indexing of strings and arrays in `eval_expr`.  A negative
single index counts from the end (`s[-1]` is the last character of a
non-empty string); a single index still out of range after that adjustment is
a value error; a two-index range clamps both endpoints into `[0, len]` and
yields the empty slice when the clamped high endpoint falls below the clamped
low one; and `s[0, len]` returns the whole value.  The same statements hold
for arrays with elements in place of characters. -/
theorem C4_index_semantics (s : String) (items : List LValue) (i j : Int)
    (el il jl : Nat) :
    (∀ adj : Int, adj = (if i < 0 then i + s.length else i) →
      (0 ≤ adj → adj < s.length →
        evalIndex el il jl (.str s) (.number i) none =
          .ok (.str ⟨[s.data.getD adj.toNat (Char.ofNat 0)]⟩)) ∧
      (adj < 0 ∨ (s.length : Int) ≤ adj →
        evalIndex el il jl (.str s) (.number i) none =
          .error ⟨il, .value_, "index out of range", none⟩)) ∧
    (0 < s.length →
      evalIndex el il jl (.str s) (.number (-1)) none =
        .ok (.str ⟨[s.data.getD (s.length - 1) (Char.ofNat 0)]⟩)) ∧
    (evalIndex el il jl (.str s) (.number i) (some (.number j)) =
        .ok (.str ⟨(s.data.drop (clampIdx s.length i)).take
          (max (clampIdx s.length j) (clampIdx s.length i) - clampIdx s.length i)⟩) ∧
      clampIdx s.length i ≤ s.length ∧ clampIdx s.length j ≤ s.length) ∧
    (clampIdx s.length j < clampIdx s.length i →
      evalIndex el il jl (.str s) (.number i) (some (.number j)) = .ok (.str "")) ∧
    (evalIndex el il jl (.str s) (.number ((0 : Int) : Rat))
        (some (.number ((s.length : Int) : Rat))) = .ok (.str s)) ∧
    (∀ adj : Int, adj = (if i < 0 then i + items.length else i) →
      (0 ≤ adj → adj < items.length →
        evalIndex el il jl (.array items) (.number i) none =
          .ok (items.getD adj.toNat .null)) ∧
      (adj < 0 ∨ (items.length : Int) ≤ adj →
        evalIndex el il jl (.array items) (.number i) none =
          .error ⟨il, .value_, "index out of range", none⟩)) ∧
    (evalIndex el il jl (.array items) (.number i) (some (.number j)) =
        .ok (.array ((items.drop (clampIdx items.length i)).take
          (max (clampIdx items.length j) (clampIdx items.length i) - clampIdx items.length i))) ∧
      clampIdx items.length i ≤ items.length ∧ clampIdx items.length j ≤ items.length) ∧
    (evalIndex el il jl (.array items) (.number ((0 : Int) : Rat))
        (some (.number ((items.length : Int) : Rat))) = .ok (.array items)) := by
  have hclamp0 : ∀ len : Nat, clampIdx len 0 = 0 := by
    intro len
    unfold clampIdx
    have h : ¬ ((0 : Int) < 0) := by omega
    simp only [h, if_false, false_or]
    split <;> omega
  have hclampLen : ∀ len : Nat, clampIdx len len = len := by
    intro len
    unfold clampIdx
    have h : ¬ ((len : Int) < 0) := by omega
    simp only [h, if_false, false_or]
    split <;> omega
  refine ⟨?_, ?_, ⟨evalIndex_str_range el il jl s i j, clampIdx_le _ _, clampIdx_le _ _⟩,
    ?_, ?_, ?_, ⟨evalIndex_arr_range el il jl items i j, clampIdx_le _ _, clampIdx_le _ _⟩, ?_⟩
  · intro adj hadj
    constructor
    · intro h0 hlen
      rw [evalIndex_str_single, if_neg (by omega), ← hadj]
    · intro h
      rw [evalIndex_str_single, if_pos (by omega)]
  · intro hpos
    have hc : ((-1 : Int) : Rat) = (-1 : Rat) := by norm_cast
    rw [← hc, evalIndex_str_single, if_neg (by omega), if_pos (by omega),
      show ((-1 : Int) + (s.length : Int)).toNat = s.length - 1 by omega]
  · intro hlt
    rw [evalIndex_str_range, Nat.max_eq_right (Nat.le_of_lt hlt)]
    simp
  · rw [evalIndex_str_range, hclamp0, hclampLen]
    simp only [Nat.max_eq_left (Nat.zero_le _), Nat.sub_zero, List.drop_zero]
    rw [show s.length = s.data.length from rfl, List.take_length]
  · intro adj hadj
    constructor
    · intro h0 hlen
      rw [evalIndex_arr_single, if_neg (by omega), ← hadj]
    · intro h
      rw [evalIndex_arr_single, if_pos (by omega)]
  · rw [evalIndex_arr_range, hclamp0, hclampLen]
    simp only [Nat.max_eq_left (Nat.zero_le _), Nat.sub_zero, List.drop_zero]
    rw [List.take_length]

/-- C4 witness: concrete instances of the indexing theorem on `"abc"` and
`[null, true]`: `-2` addresses `"b"`, `-1` the last character, `3` is out of
range, the reversed range `[2,1]` is empty, and `[0, len]` is the identity. -/
theorem C4_index_semantics_witness :
    evalIndex 0 0 0 (.str "abc") (.number (-2)) none = .ok (.str "b") ∧
    evalIndex 0 0 0 (.str "abc") (.number (-1)) none = .ok (.str "c") ∧
    evalIndex 0 0 0 (.str "abc") (.number 3) none =
      .error ⟨0, .value_, "index out of range", none⟩ ∧
    evalIndex 0 0 0 (.str "abc") (.number 2) (some (.number 1)) = .ok (.str "") ∧
    evalIndex 0 0 0 (.str "abc") (.number ((0 : Int) : Rat))
      (some (.number ((("abc" : String).length : Int) : Rat))) = .ok (.str "abc") ∧
    evalIndex 0 0 0 (.array [.null, .boolean true]) (.number (-1)) none =
      .ok (.boolean true) := by
  refine ⟨?_, ?_, ?_, ?_, ?_, ?_⟩
  · exact (((C4_index_semantics "abc" [] (-2) 0 0 0 0).1 1 (by decide)).1
      (by decide) (by decide)).trans rfl
  · exact ((C4_index_semantics "abc" [] (-1) 0 0 0 0).2.1 (by decide)).trans rfl
  · exact ((C4_index_semantics "abc" [] 3 0 0 0 0).1 3 (by decide)).2 (by decide)
  · exact ((C4_index_semantics "abc" [] 2 1 0 0 0).2.2.2.1 (by decide))
  · exact (C4_index_semantics "abc" [] 0 0 0 0 0).2.2.2.2.1
  · exact (((C4_index_semantics "" [.null, .boolean true] (-1) 0 0 0 0).2.2.2.2.2.1
      1 (by decide)).1 (by decide) (by decide)).trans rfl

namespace LatticeC

/-- Every error result of the renderer walk carries a zero byte count, as
every C error path in `eval` is a `return 0`. -/
theorem evalToks_err_res_zero {σ : Type} (fuel : Nat) (env : Env)
    (emitFn : String → σ → Nat × σ) (opts : Opts) (toks : List Tok) (ctx : LValue)
    (res : Nat) (wasIf endIf : Bool) (st : RState σ) (e : Err)
    (h : (evalToks fuel env emitFn opts toks ctx res wasIf endIf st).2.1 = some e) :
    (evalToks fuel env emitFn opts toks ctx res wasIf endIf st).1 = 0 := by
  induction fuel generalizing toks ctx res wasIf endIf st with
  | zero => rfl
  | succ fuel ih =>
    cases toks with
    | nil => simp [evalToks] at h
    | cons t rest =>
      simp only [evalToks] at h ⊢
      by_cases h1 : (t.ty = .tElif ∨ t.ty = .tElse) ∧ wasIf = false
      · rw [if_pos h1] at h ⊢
      · rw [if_neg h1] at h ⊢
        by_cases h2 : (t.ty = .tElif ∨ t.ty = .tElse) ∧ endIf = true
        · rw [if_pos h2] at h ⊢
          exact ih _ _ _ _ _ _ h
        · rw [if_neg h2] at h ⊢
          rcases hs : evalStep fuel env emitFn opts t ctx res endIf st with ⟨r1, oe, ei, st'⟩
          rw [hs] at h
          cases oe with
          | some e2 => rfl
          | none => exact ih _ _ _ _ _ _ h

end LatticeC

/-- C8: when the emit callback returns 0 for a nonempty chunk and
`ignore_emit_zero` is unset, the `EVAL_EMIT` step aborts with an IO error and
a zero byte count; with the flag set, the zero is added as zero bytes written
and rendering continues; and whenever the render ends with an error — the IO
error included — the `lattice` entrypoint reports a byte count of zero. -/
theorem C8_emit_zero :
    (∀ (σ : Type) (opts : Opts) (emitFn : String → σ → Nat × σ) (line : Nat)
       (s : String) (res : Nat) (st : RState σ) (sf : σ),
       opts.ignoreEmitZero = false → s ≠ "" → emitFn s st.sink = (0, sf) →
       evalEmit opts emitFn line s res st =
         (0, some ⟨line, .io, "failed to write output", none⟩, ⟨sf, st.trace ++ [s]⟩)) ∧
    (∀ (σ : Type) (opts : Opts) (emitFn : String → σ → Nat × σ) (line : Nat)
       (s : String) (res : Nat) (st : RState σ) (sf : σ),
       opts.ignoreEmitZero = true → s ≠ "" → emitFn s st.sink = (0, sf) →
       evalEmit opts emitFn line s res st = (res, none, ⟨sf, st.trace ++ [s]⟩)) ∧
    (∀ (σ : Type) (fuel : Nat) (env : Env) (fs : FS) (emitFn : String → σ → Nat × σ)
       (opts : Opts) (tmpl : String) (root : LValue) (st : RState σ) (e : Err),
       (lattice fuel env fs emitFn opts tmpl root st).2.1 = some e →
       (lattice fuel env fs emitFn opts tmpl root st).1 = 0) := by
  refine ⟨?_, ?_, ?_⟩
  · intro σ opts emitFn line s res st sf hflag hne hfn
    unfold evalEmit
    rw [if_neg hne, hfn]
    simp [hflag]
  · intro σ opts emitFn line s res st sf hflag hne hfn
    unfold evalEmit
    rw [if_neg hne, hfn]
    simp [hflag]
  · intro σ fuel env fs emitFn opts tmpl root st e h
    unfold lattice at h ⊢
    cases hp : parseTemplate fuel fs opts [] tmpl with
    | error e' => rfl
    | ok toks =>
      rw [hp] at h
      exact evalToks_err_res_zero fuel env emitFn opts toks root 0 false false st e h

/-- C8 witness: a sink whose emit always returns 0 renders `"ab"` to an IO
error with byte count 0 under default options and to a successful render of 0
bytes with `ignore_emit_zero` set. -/
theorem C8_emit_zero_witness :
    ({} : Opts).ignoreEmitZero = false ∧ ("ab" : String) ≠ "" ∧
    evalEmit {} (fun _ (_ : Unit) => (0, ())) 7 "ab" 5 ⟨(), []⟩ =
      (0, some ⟨7, .io, "failed to write output", none⟩, ⟨(), ["ab"]⟩) ∧
    evalEmit { ignoreEmitZero := true } (fun _ (_ : Unit) => (0, ())) 7 "ab" 5 ⟨(), []⟩ =
      (5, none, ⟨(), ["ab"]⟩) ∧
    (lattice 100 envT [] (fun _ (_ : Unit) => (0, ())) {} "ab" (.object []) ⟨(), []⟩).1 = 0 := by
  refine ⟨rfl, by decide, ?_, ?_, ?_⟩
  · exact C8_emit_zero.1 Unit {} _ 7 "ab" 5 ⟨(), []⟩ () rfl (by decide) rfl
  · exact C8_emit_zero.2.1 Unit { ignoreEmitZero := true } _ 7 "ab" 5 ⟨(), []⟩ () rfl (by decide) rfl
  · exact C8_emit_zero.2.2 Unit 100 envT [] _ {} "ab" (.object []) ⟨(), []⟩
      ⟨0, .io, "failed to write output", none⟩ rfl
namespace LatticeC

/-- Coherence of the growable-buffer sink: the buffer contents equal the
concatenation of all chunks handed to the emit callback. -/
def BufInv (st : RState String) : Prop := st.sink = String.join st.trace

/-- A single `EVAL_EMIT` through `buffer_emit` preserves coherence. -/
theorem evalEmit_buffer_inv (opts : Opts) (line : Nat) (s : String) (res : Nat)
    (st : RState String) (h : BufInv st) :
    BufInv (evalEmit opts bufferEmit line s res st).2.2 := by
  unfold BufInv at h ⊢
  unfold evalEmit bufferEmit
  split
  · exact h
  · dsimp only
    split <;> simp [String.join, List.foldl_append, h]

/-- Coherence is preserved by the whole renderer walk (all four mutually
recursive functions), by induction on the fuel. -/
theorem eval_buffer_inv (fuel : Nat) :
    (∀ (env : Env) (opts : Opts) (toks : List Tok) (ctx : LValue) (res : Nat)
       (wasIf endIf : Bool) (st : RState String), BufInv st →
       BufInv (evalToks fuel env bufferEmit opts toks ctx res wasIf endIf st).2.2) ∧
    (∀ (env : Env) (opts : Opts) (t : Tok) (ctx : LValue) (res : Nat)
       (endIf : Bool) (st : RState String), BufInv st →
       BufInv (evalStep fuel env bufferEmit opts t ctx res endIf st).2.2.2) ∧
    (∀ (env : Env) (opts : Opts) (children : List Tok) (v ctx : LValue) (res : Nat)
       (st : RState String), BufInv st →
       BufInv (evalSwitchCases fuel env bufferEmit opts children v ctx res st).2.2) ∧
    (∀ (env : Env) (opts : Opts) (body : List Tok) (anon : Bool) (identStr : String)
       (baseEntries : List (String × LValue)) (binds : List LValue) (ctx : LValue)
       (res : Nat) (st : RState String), BufInv st →
       BufInv (evalForLoop fuel env bufferEmit opts body anon identStr baseEntries
         binds ctx res st).2.2) := by
  induction fuel with
  | zero => exact ⟨fun _ _ _ _ _ _ _ _ h => h, fun _ _ _ _ _ _ _ h => h,
      fun _ _ _ _ _ _ _ h => h, fun _ _ _ _ _ _ _ _ _ _ h => h⟩
  | succ fuel ih =>
    obtain ⟨ihT, ihS, ihC, ihF⟩ := ih
    refine ⟨?_, ?_, ?_, ?_⟩
    all_goals intro env opts
    case refine_1 =>
      intro toks ctx res wasIf endIf st h
      simp only [evalToks]
      repeat' split
      all_goals first
        | exact h
        | exact ihT _ _ _ _ _ _ _ _ h
        | (rename_i heq
           have h2 := congrArg (fun x => x.2.2.2) heq
           dsimp only at h2
           rw [← h2]
           first
           | exact ihS _ _ _ _ _ _ _ h
           | exact ihT _ _ _ _ _ _ _ _ (ihS _ _ _ _ _ _ _ h))
    case refine_2 =>
      intro t ctx res endIf st h
      simp only [evalStep]
      repeat' split
      all_goals first
        | exact h
        | exact evalEmit_buffer_inv _ _ _ _ _ h
        | exact ihC _ _ _ _ _ _ _ h
        | exact ihF _ _ _ _ _ _ _ _ _ _ h
        | (rename_i heq
           have h2 := congrArg (fun x => x.2.2) heq
           dsimp only at h2
           rw [← h2]
           exact ihT _ _ _ _ _ _ _ _ h)
    case refine_3 =>
      intro children v ctx res st h
      simp only [evalSwitchCases]
      repeat' split
      all_goals first
        | exact h
        | exact ihC _ _ _ _ _ _ _ h
        | (rename_i heq
           have h2 := congrArg (fun x => x.2.2) heq
           dsimp only at h2
           rw [← h2]
           exact ihT _ _ _ _ _ _ _ _ h)
    case refine_4 =>
      intro body anon identStr baseEntries binds ctx res st h
      simp only [evalForLoop]
      repeat' split
      all_goals first
        | exact h
        | (rename_i heq
           have h2 := congrArg (fun x => x.2.2) heq
           dsimp only at h2
           rw [← h2]
           first
           | exact ihT _ _ _ _ _ _ _ _ h
           | exact ihF _ _ _ _ _ _ _ _ _ _ (ihT _ _ _ _ _ _ _ _ h))

end LatticeC
open LatticeC

/-- C10: `lattice_buffer` hands its caller a valid (possibly empty) string
buffer after every call: the out-buffer is initialised to the empty string
before rendering begins, on a parse failure it is returned untouched, and in
every case its contents are exactly the concatenation of the chunks handed to
the emit callback, so the caller never sees an uninitialised buffer. -/
theorem C10_buffer_always_valid_string (fuel : Nat) (env : Env) (fs : FS)
    (opts : Opts) (template : String) (root : LValue) :
    BufInv (latticeBuffer fuel env fs opts template root).2.2 ∧
    (∀ e, parseTemplate fuel fs opts [] template = Except.error e →
      latticeBuffer fuel env fs opts template root = (0, e, ⟨"", []⟩)) := by
  constructor
  · unfold latticeBuffer lattice
    split
    · exact rfl
    · exact (eval_buffer_inv fuel).1 env opts _ root 0 false false ⟨"", []⟩ rfl
  · intro e h
    unfold latticeBuffer lattice
    rw [h]

/-- C10 witness: the template `$(x` fails to parse (unterminated comment), and
`lattice_buffer` still returns the initial empty buffer to the caller. -/
theorem C10_buffer_always_valid_string_witness :
    parseTemplate 60 [] {} [] "$(x" =
      Except.error (some ⟨1, .syntax_, "unterminated comment", none⟩) ∧
    latticeBuffer 60 envT [] {} "$(x" LValue.null =
      (0, some ⟨1, .syntax_, "unterminated comment", none⟩, ⟨"", []⟩) :=
  ⟨rfl, (C10_buffer_always_valid_string 60 envT [] {} "$(x" LValue.null).2
    (some ⟨1, .syntax_, "unterminated comment", none⟩) rfl⟩
namespace LatticeC

mutual

/-- No `datetime` method call occurs anywhere in the expression. -/
def dfreeE : Expr → Bool
  | .nullE _ | .booleanE _ _ | .numberE _ _ | .strE _ _ | .rootE _ | .identE _ _ => true
  | .arrE _ items => dfreeL items
  | .objE _ keys vals => dfreeL keys && dfreeL vals
  | .binE _ _ a b => dfreeE a && dfreeE b
  | .unE _ _ a => dfreeE a
  | .lookupE _ o _ => dfreeE o
  | .methodE _ o n args => (n != "datetime") && dfreeE o && dfreeL args
  | .indexE _ c i j => dfreeE c && dfreeE i && dfreeO j
  | .ternaryE _ c a b => dfreeE c && dfreeE a && dfreeE b

def dfreeL : ExprList → Bool
  | .nil => true
  | .cons e rest => dfreeE e && dfreeL rest

def dfreeO : OExpr → Bool
  | .noneE => true
  | .someE e => dfreeE e

end

/-- Lift of `dfreeE` to the optional expression slots of a token. -/
def dfreeOpt : Option Expr → Bool
  | none => true
  | some e => dfreeE e

mutual

/-- No `datetime` method call occurs in any expression of the token tree. -/
def dfreeTok : Tok → Bool
  | .mk _ _ _ e0 e1 child => dfreeOpt e0 && dfreeOpt e1 && dfreeToks child

def dfreeToks : List Tok → Bool
  | [] => true
  | t :: ts => dfreeTok t && dfreeToks ts

end

example : dfreeE (.methodE 1 (.strE 1 "%S") "datetime" .nil) = false := by rfl
example : dfreeE (.binE 1 .add (.numberE 1 2) (.numberE 1 3)) = true := by rfl
example : dfreeToks [.mk 0 .span "x" none none [], .mk 0 .subEsc "" (some (.identE 1 "name")) none []] = true := by rfl

end LatticeC
namespace LatticeC

/-- `method` consults the time oracle only in its `datetime` branch: two
capability tables sharing the printer agree on every other method. -/
theorem latticeMethod_congr (now1 now2 : String → String) (pr : LValue → String)
    (name : String) (hname : name ≠ "datetime") (this : LValue)
    (args : List LValue) (line : Nat) :
    latticeMethod ⟨now1, pr⟩ name this args line
      = latticeMethod ⟨now2, pr⟩ name this args line := by
  unfold latticeMethod
  dsimp only
  rcases hm : methodsTable (latticeHash name) with _ | m
  · rfl
  · dsimp only
    by_cases h1 : m.1 ≠ name
    · rw [if_pos h1, if_pos h1]
    · rw [if_neg h1, if_neg h1]
      by_cases h2 : args.length ≠ m.2
      · rw [if_pos h2, if_pos h2]
      · rw [if_neg h2, if_neg h2]
        by_cases hid : latticeHash name = 0xa4
        · exfalso
          rw [hid] at hm
          have hm2 : m = ("datetime", 0) := by
            have : some m = some ("datetime", 0) := hm ▸ rfl
            exact Option.some_injective _ this.symm ▸ rfl
          apply hname
          push_neg at h1
          rw [← h1, hm2]
        · rw [if_neg hid, if_neg hid]

end LatticeC
namespace LatticeC

/-- The expression evaluator consults the time oracle only through the
`datetime` method: on datetime-free expressions, two capability tables sharing
the printer produce identical values (mutually with lists and object
entries), at every fuel. -/
theorem evalExpr_congr (now1 now2 : String → String) (pr : LValue → String)
    (fuel : Nat) :
    (∀ (e : Expr) (ctx : LValue), dfreeE e = true →
      evalExpr fuel ⟨now1, pr⟩ e ctx = evalExpr fuel ⟨now2, pr⟩ e ctx) ∧
    (∀ (es : ExprList) (ctx : LValue), dfreeL es = true →
      evalList fuel ⟨now1, pr⟩ es ctx = evalList fuel ⟨now2, pr⟩ es ctx) ∧
    (∀ (keys vals : ExprList) (ctx : LValue), dfreeL keys = true → dfreeL vals = true →
      evalObjEntries fuel ⟨now1, pr⟩ keys vals ctx
        = evalObjEntries fuel ⟨now2, pr⟩ keys vals ctx) := by
  induction fuel with
  | zero => exact ⟨fun _ _ _ => rfl, fun _ _ _ => rfl, fun _ _ _ _ _ => rfl⟩
  | succ fuel ih =>
    obtain ⟨ihE, ihL, ihO⟩ := ih
    refine ⟨?_, ?_, ?_⟩
    · intro e ctx hd
      cases e with
      | nullE l => rfl
      | booleanE l b => rfl
      | numberE l n => rfl
      | strE l s => rfl
      | rootE l => rfl
      | identE l n => rfl
      | arrE l items =>
        simp only [dfreeE] at hd
        simp only [evalExpr, ihL items ctx hd]
      | objE l keys vals =>
        simp only [dfreeE, Bool.and_eq_true] at hd
        simp only [evalExpr, ihO keys vals ctx hd.1 hd.2]
      | binE l op a b =>
        simp only [dfreeE, Bool.and_eq_true] at hd
        simp only [evalExpr, ihE a ctx hd.1, ihE b ctx hd.2]
      | unE l op a =>
        simp only [dfreeE] at hd
        simp only [evalExpr, ihE a ctx hd]
      | lookupE l o n =>
        simp only [dfreeE] at hd
        simp only [evalExpr, ihE o ctx hd]
      | methodE l o n args =>
        simp only [dfreeE, Bool.and_eq_true, bne_iff_ne] at hd
        simp only [evalExpr, ihE o ctx hd.1.2, ihL args ctx hd.2,
          latticeMethod_congr now1 now2 pr n hd.1.1]
      | indexE l c i j =>
        simp only [dfreeE, Bool.and_eq_true] at hd
        cases j with
        | noneE =>
          simp only [evalExpr, ihE c ctx hd.1.1, ihE i ctx hd.1.2]
        | someE je =>
          simp only [dfreeO] at hd
          simp only [evalExpr, ihE c ctx hd.1.1, ihE i ctx hd.1.2, ihE je ctx hd.2]
      | ternaryE l c a b =>
        simp only [dfreeE, Bool.and_eq_true] at hd
        simp only [evalExpr, ihE c ctx hd.1.1, ihE a ctx hd.1.2, ihE b ctx hd.2]
    · intro es ctx hd
      cases es with
      | nil => rfl
      | cons e rest =>
        simp only [dfreeL, Bool.and_eq_true] at hd
        simp only [evalList, ihE e ctx hd.1, ihL rest ctx hd.2]
    · intro keys vals ctx hk hv
      cases keys with
      | nil => rfl
      | cons k krest =>
        simp only [dfreeL, Bool.and_eq_true] at hk
        cases vals with
        | nil =>
          simp only [evalObjEntries, ihE k ctx hk.1, ihO krest .nil ctx hk.2 hv]
        | cons v vrest =>
          simp only [dfreeL, Bool.and_eq_true] at hv
          have hvc : dfreeL (.cons v vrest) = true := by
            simp only [dfreeL, Bool.and_eq_true]; exact hv
          simp only [evalObjEntries, ihE k ctx hk.1, ihE v ctx hv.1,
            ihO krest vrest ctx hk.2 hv.2, ihO krest (.cons v vrest) ctx hk.2 hvc]

end LatticeC
namespace LatticeC

/-- The renderer consults the time oracle only through `datetime` calls in
parsed expressions: on datetime-free token trees, two capability tables
sharing the printer render identically (all four mutually recursive walks), at
every fuel. -/
theorem evalToks_congr {σ : Type} (emitFn : String → σ → Nat × σ)
    (now1 now2 : String → String) (pr : LValue → String) (fuel : Nat) :
    (∀ (opts : Opts) (toks : List Tok), dfreeToks toks = true →
      ∀ (ctx : LValue) (res : Nat) (wasIf endIf : Bool) (st : RState σ),
        evalToks fuel ⟨now1, pr⟩ emitFn opts toks ctx res wasIf endIf st
          = evalToks fuel ⟨now2, pr⟩ emitFn opts toks ctx res wasIf endIf st) ∧
    (∀ (opts : Opts) (t : Tok), dfreeTok t = true →
      ∀ (ctx : LValue) (res : Nat) (endIf : Bool) (st : RState σ),
        evalStep fuel ⟨now1, pr⟩ emitFn opts t ctx res endIf st
          = evalStep fuel ⟨now2, pr⟩ emitFn opts t ctx res endIf st) ∧
    (∀ (opts : Opts) (children : List Tok), dfreeToks children = true →
      ∀ (v ctx : LValue) (res : Nat) (st : RState σ),
        evalSwitchCases fuel ⟨now1, pr⟩ emitFn opts children v ctx res st
          = evalSwitchCases fuel ⟨now2, pr⟩ emitFn opts children v ctx res st) ∧
    (∀ (opts : Opts) (body : List Tok), dfreeToks body = true →
      ∀ (anon : Bool) (identStr : String) (baseEntries : List (String × LValue))
        (binds : List LValue) (ctx : LValue) (res : Nat) (st : RState σ),
        evalForLoop fuel ⟨now1, pr⟩ emitFn opts body anon identStr baseEntries
            binds ctx res st
          = evalForLoop fuel ⟨now2, pr⟩ emitFn opts body anon identStr baseEntries
            binds ctx res st) := by
  induction fuel with
  | zero => exact ⟨fun _ _ _ _ _ _ _ _ => rfl, fun _ _ _ _ _ _ _ => rfl,
      fun _ _ _ _ _ _ _ => rfl, fun _ _ _ _ _ _ _ _ _ _ => rfl⟩
  | succ fuel ih =>
    obtain ⟨ihT, ihS, ihC, ihF⟩ := ih
    have ihE := (evalExpr_congr now1 now2 pr fuel).1
    have ihL := (evalExpr_congr now1 now2 pr fuel).2.1
    refine ⟨?_, ?_, ?_, ?_⟩
    · intro opts toks hd ctx res wasIf endIf st
      cases toks with
      | nil => rfl
      | cons t rest =>
        simp only [dfreeToks, Bool.and_eq_true] at hd
        simp only [evalToks, ihS opts t hd.1, ihT opts rest hd.2]
    · intro opts t hd ctx res endIf st
      obtain ⟨tl, tty, tid, te0, te1, tchild⟩ := t
      simp only [dfreeTok, Bool.and_eq_true] at hd
      obtain ⟨⟨h0, h1⟩, hc⟩ := hd
      cases tty with
      | span => rfl
      | subEsc =>
        cases te0 with
        | none => rfl
        | some ex =>
          simp only [dfreeOpt] at h0
          simp only [evalStep, Tok.ty, Tok.e0, Tok.line, Tok.ident, Tok.child,
            ihE ex ctx h0]
      | subRaw =>
        cases te0 with
        | none => rfl
        | some ex =>
          simp only [dfreeOpt] at h0
          simp only [evalStep, Tok.ty, Tok.e0, Tok.line, Tok.ident, Tok.child,
            ihE ex ctx h0]
      | inclu =>
        simp only [evalStep, Tok.ty, Tok.ident, Tok.child, ihT opts tchild hc]
      | tIf =>
        cases te0 with
        | none => rfl
        | some ex =>
          simp only [dfreeOpt] at h0
          simp only [evalStep, Tok.ty, Tok.e0, Tok.child, ihE ex ctx h0,
            ihT opts tchild hc]
      | tElif =>
        cases te0 with
        | none => rfl
        | some ex =>
          simp only [dfreeOpt] at h0
          simp only [evalStep, Tok.ty, Tok.e0, Tok.child, ihE ex ctx h0,
            ihT opts tchild hc]
      | tElse =>
        simp only [evalStep, Tok.ty, Tok.child, ihT opts tchild hc]
      | tSwitch =>
        cases te0 with
        | none => rfl
        | some ex =>
          simp only [dfreeOpt] at h0
          simp only [evalStep, Tok.ty, Tok.e0, Tok.child, ihE ex ctx h0,
            ihC opts tchild hc]
      | tForRangeExc =>
        cases te0 with
        | none => rfl
        | some ex =>
          simp only [dfreeOpt] at h0
          cases te1 with
          | none =>
            simp only [evalStep, Tok.ty, Tok.e0, Tok.e1, Tok.line, Tok.ident,
              Tok.child, ihE ex ctx h0, ihF opts tchild hc]
          | some ex2 =>
            simp only [dfreeOpt] at h1
            simp only [evalStep, Tok.ty, Tok.e0, Tok.e1, Tok.line, Tok.ident,
              Tok.child, ihE ex ctx h0, ihE ex2 ctx h1, ihF opts tchild hc]
      | tForRangeInc =>
        cases te0 with
        | none => rfl
        | some ex =>
          simp only [dfreeOpt] at h0
          cases te1 with
          | none =>
            simp only [evalStep, Tok.ty, Tok.e0, Tok.e1, Tok.line, Tok.ident,
              Tok.child, ihE ex ctx h0, ihF opts tchild hc]
          | some ex2 =>
            simp only [dfreeOpt] at h1
            simp only [evalStep, Tok.ty, Tok.e0, Tok.e1, Tok.line, Tok.ident,
              Tok.child, ihE ex ctx h0, ihE ex2 ctx h1, ihF opts tchild hc]
      | tForIter =>
        cases te0 with
        | none => rfl
        | some ex =>
          simp only [dfreeOpt] at h0
          cases te1 with
          | none =>
            simp only [evalStep, Tok.ty, Tok.e0, Tok.e1, Tok.line, Tok.ident,
              Tok.child, ihE ex ctx h0, ihF opts tchild hc]
          | some ex2 =>
            simp only [dfreeOpt] at h1
            simp only [evalStep, Tok.ty, Tok.e0, Tok.e1, Tok.line, Tok.ident,
              Tok.child, ihE ex ctx h0, ihE ex2 ctx h1, ihF opts tchild hc]
      | tWith =>
        cases te0 with
        | none => rfl
        | some ex =>
          simp only [dfreeOpt] at h0
          simp only [evalStep, Tok.ty, Tok.e0, Tok.child, ihE ex ctx h0,
            ihT opts tchild hc]
      | tCase => rfl
      | tDefault => rfl
      | tEnd => rfl
    · intro opts children hd v ctx res st
      cases children with
      | nil => rfl
      | cons c cs =>
        simp only [dfreeToks, Bool.and_eq_true] at hd
        obtain ⟨hdc, hcs⟩ := hd
        obtain ⟨cl, cty, cid, ce0, ce1, cchild⟩ := c
        simp only [dfreeTok, Bool.and_eq_true] at hdc
        obtain ⟨⟨h0, h1⟩, hcc⟩ := hdc
        cases ce0 with
        | none =>
          simp only [evalSwitchCases, Tok.ty, Tok.e0, Tok.line, Tok.child,
            ihT opts cchild hcc, ihC opts cs hcs]
        | some ce =>
          simp only [dfreeOpt] at h0
          simp only [evalSwitchCases, Tok.ty, Tok.e0, Tok.line, Tok.child,
            ihE ce ctx h0, ihT opts cchild hcc, ihC opts cs hcs]
    · intro opts body hd anon identStr baseEntries binds ctx res st
      cases binds with
      | nil => rfl
      | cons b bs =>
        simp only [evalForLoop, ihT opts body hd, ihF opts body hd]

end LatticeC
open LatticeC

/-- C7 (amended): rendering is a pure function of the template, root,
capability table and options together with the wall-clock oracle; the clock is
consulted only by the `datetime` method, so for every template whose parsed
token tree is datetime-free, renders under two capability tables that share
the printer but read arbitrarily different clocks coincide exactly. -/
theorem C7_deterministic_without_datetime {σ : Type} (fuel : Nat)
    (now1 now2 : String → String) (pr : LValue → String) (fs : FS) (opts : Opts)
    (emitFn : String → σ → Nat × σ) (template : String) (root : LValue)
    (st : RState σ) (toks : List Tok)
    (hp : parseTemplate fuel fs opts [] template = .ok toks)
    (hd : dfreeToks toks = true) :
    lattice fuel ⟨now1, pr⟩ fs emitFn opts template root st
      = lattice fuel ⟨now2, pr⟩ fs emitFn opts template root st := by
  unfold lattice
  rw [hp]
  exact (evalToks_congr emitFn now1 now2 pr fuel).1 opts toks hd root 0 false false st

/-- C7 witness: `Hi $\x7bname\x7d!` parses to a datetime-free token pair, and its
render does not change when the clock oracle moves from "11" to "22". -/
theorem C7_deterministic_without_datetime_witness :
    parseTemplate 50 [] {} [] "Hi ${name}!" = Except.ok
      [.mk 0 .span "Hi " none none [],
       .mk 0 .subRaw "" (some (.identE 1 "name")) none []] ∧
    dfreeToks
      [.mk 0 .span "Hi " none none [],
       .mk 0 .subRaw "" (some (.identE 1 "name")) none []] = true ∧
    lattice 50 ⟨fun _ => "11", fun _ => "null"⟩ [] bufferEmit {} "Hi ${name}!"
        (.object [("name", .str "Bob")]) ⟨"", []⟩
      = lattice 50 ⟨fun _ => "22", fun _ => "null"⟩ [] bufferEmit {} "Hi ${name}!"
        (.object [("name", .str "Bob")]) ⟨"", []⟩ :=
  ⟨rfl, rfl,
    C7_deterministic_without_datetime 50 (fun _ => "11") (fun _ => "22")
      (fun _ => "null") [] {} bufferEmit "Hi ${name}!"
      (.object [("name", .str "Bob")]) ⟨"", []⟩
      [.mk 0 .span "Hi " none none [],
       .mk 0 .subRaw "" (some (.identE 1 "name")) none []] rfl rfl⟩
